/-
Verification of the sigma-proof core of the zk-elgamal-proof repository
(`src/zk-sdk/src/sigma_proofs/`): the ciphertext-commitment equality proof,
the ciphertext-ciphertext equality proof and the zero-ciphertext proof.

Modelling choices:

* The Ristretto group is a prime-order cyclic group of order L, external to
  the repository.  Every such group is isomorphic (as a module over its
  scalar field) to the scalar field itself via the discrete logarithm with
  respect to the base generator `G`.  Since the source manipulates points
  only through group operations, we embed points as elements of the scalar
  field `F` (their discrete log), with `G = 1` and the independent Pedersen
  generator `H` an arbitrary field element `Hgen`.  The development is
  generic over `F` (a field, matching the prime order L of the scalar
  field); witnesses instantiate `F := ZMod 101`.

* A compressed point (`CompressedRistretto`) is an `Option F`: `some p` is
  the canonical encoding of the point `p`, `none` stands for a malformed
  (non-decompressible) 32-byte encoding.  `compress = some`,
  `decompress = id`.

* The merlin transcript is external to the repository.  Following the
  spec, it is an order-sensitive append-only history of labeled events;
  challenge derivation is an arbitrary deterministic function `chal` of
  the history and the label, passed as a parameter.

* `OsRng` sampling is external nondeterminism: the sampled masking
  scalars are explicit arguments of the provers.

* Byte strings for the wire codec are lists over an abstract byte type
  `B`; the external point/scalar codecs are parameters.
-/
import Mathlib

set_option maxHeartbeats 1000000

/-- Error kinds of sigma proof verification, mirroring
`sigma_proofs/errors.rs` (`SigmaProofVerificationError`). -/
inductive SigmaProofVerificationError : Type
  | AlgebraicRelation
  | Deserialization
  | MultiscalarMul
  | Transcript
  | PubkeyIsIdentity
  deriving DecidableEq, Repr

/-- Wrapper error for equality proof verification, mirroring
`EqualityProofVerificationError` in `errors.rs` (a newtype around
`SigmaProofVerificationError`). -/
structure EqualityProofVerificationError : Type where
  err : SigmaProofVerificationError
  deriving DecidableEq, Repr

/-- Wrapper error for zero-ciphertext proof verification, mirroring
`ZeroCiphertextProofVerificationError` in `errors.rs`. -/
structure ZeroCiphertextProofVerificationError : Type where
  err : SigmaProofVerificationError
  deriving DecidableEq, Repr

/-- Modelled from the spec: one absorbed event of the merlin Fiat-Shamir
transcript (the transcript implementation is not part of the repository
core under verification).  The transcript is order-sensitive and
append-only; each append of a domain separator, a (compressed) point, a
scalar, or a challenge extraction is recorded. -/
inductive TEvent (F : Type) : Type
  | domSep (l : String)
  | point (l : String) (e : Option F)
  | scalar (l : String) (v : F)
  | chalEvt (l : String)
  deriving DecidableEq

section Protocol

variable {F : Type} [Field F] [DecidableEq F]

/-- The base generator G in discrete-log representation. -/
def Ggen (F : Type) [Field F] : F := 1

/-- Point compression: a valid canonical encoding of the point. -/
def compress (p : F) : Option F := some p

/-- Point decompression: recovers the point from a valid encoding, fails
on a malformed one. -/
def decompress (e : Option F) : Option F := e

/-- Modelled from the spec: ElGamal public key (a group element `P`),
external encryption module. -/
structure ElGamalPubkey (F : Type) : Type where
  point : F
  deriving DecidableEq

/-- Modelled from the spec: ElGamal secret key (a scalar `s`), external
encryption module. -/
structure ElGamalSecretKey (F : Type) : Type where
  scalar : F
  deriving DecidableEq

/-- Modelled from the spec: an ElGamal keypair owning a pubkey and a
secret scalar, external encryption module. -/
structure ElGamalKeypair (F : Type) : Type where
  pubkey : ElGamalPubkey F
  secret : ElGamalSecretKey F
  deriving DecidableEq

/-- Modelled from the spec: Pedersen commitment (a group element),
external commitment module. -/
structure PedersenCommitment (F : Type) : Type where
  point : F
  deriving DecidableEq

/-- Modelled from the spec: Pedersen opening (the scalar randomness),
external commitment module. -/
structure PedersenOpening (F : Type) : Type where
  scalar : F
  deriving DecidableEq

/-- Modelled from the spec: ElGamal decrypt handle (a group element),
external encryption module. -/
structure DecryptHandle (F : Type) : Type where
  point : F
  deriving DecidableEq

/-- Modelled from the spec: a twisted ElGamal ciphertext, a pair of a
Pedersen-style commitment `C` and a decrypt handle `D`. -/
structure ElGamalCiphertext (F : Type) : Type where
  commitment : PedersenCommitment F
  handle : DecryptHandle F
  deriving DecidableEq

/-- Modelled from the spec: well-formedness of an ElGamal keypair.  The
spec's data-model sentence writes `P = s·G`, but the verification
equation of the source (first sub-equation `z_s·P - c·H - Y_0 = 0`) and
the completeness property asserted by the spec and witnessed by the
in-source tests force the twisted-ElGamal relation `s·P = H`
(equivalently `P = s⁻¹·H`); we adopt the relation under which the
source's own tests hold. -/
def ElGamalKeypair.wellFormed (Hgen : F) (kp : ElGamalKeypair F) : Prop :=
  kp.secret.scalar * kp.pubkey.point = Hgen

/-- Keypair well-formedness is a decidable predicate. -/
instance (Hgen : F) (kp : ElGamalKeypair F) :
    Decidable (kp.wellFormed Hgen) := by
  unfold ElGamalKeypair.wellFormed
  infer_instance

/-- Modelled from the spec: the ciphertext `ct` is a twisted ElGamal
encryption of the message `x` under pubkey `pk` with randomness `r`:
`C = x·G + r·H` and `D = r·P`. -/
def ElGamalCiphertext.isEncryptionOf (Hgen : F) (pk : ElGamalPubkey F)
    (x : F) (r : F) (ct : ElGamalCiphertext F) : Prop :=
  ct.commitment.point = x * Ggen F + r * Hgen ∧ ct.handle.point = r * pk.point

/-- Modelled from the spec: twisted ElGamal encryption of a 64-bit
message under a pubkey with explicit randomness (external encryption
module). -/
def ElGamalPubkey.encryptWith (Hgen : F) (pk : ElGamalPubkey F)
    (amount : Nat) (r : F) : ElGamalCiphertext F :=
  { commitment := ⟨(amount : F) * Ggen F + r * Hgen⟩
    handle := ⟨r * pk.point⟩ }

/-- Modelled from the spec: Pedersen commitment to a 64-bit message with
explicit opening (external commitment module). -/
def pedersenCommitWith (Hgen : F) (amount : Nat) (r : F) :
    PedersenCommitment F :=
  ⟨(amount : F) * Ggen F + r * Hgen⟩

/-- Multiscalar multiplication: the weighted sum of scalar-point
products.  Models both the fixed-time `multiscalar_mul` of the provers
and the `vartime_multiscalar_mul` of the verifiers (the timing variants
compute the same value). -/
def multiscalarMul (ss ps : List F) : F :=
  (List.zipWith (fun a b => a * b) ss ps).sum

/-- Modelled from the spec: absorb a labeled compressed point into the
transcript. -/
def appendPoint (t : List (TEvent F)) (l : String) (e : Option F) :
    List (TEvent F) :=
  t ++ [TEvent.point l e]

/-- Modelled from the spec: absorb a labeled scalar into the
transcript. -/
def appendScalar (t : List (TEvent F)) (l : String) (v : F) :
    List (TEvent F) :=
  t ++ [TEvent.scalar l v]

/-- Modelled from the spec: absorb a labeled domain separator into the
transcript. -/
def appendDomSep (t : List (TEvent F)) (l : String) : List (TEvent F) :=
  t ++ [TEvent.domSep l]

/-- Modelled from the spec: `validate_and_append_point` decompresses the
encoding first, failing with a `Deserialization` error if it is
malformed, and otherwise absorbs it like `append_point`. -/
def validateAndAppendPoint (t : List (TEvent F)) (l : String)
    (e : Option F) :
    Except SigmaProofVerificationError (List (TEvent F)) :=
  match decompress e with
  | none => Except.error SigmaProofVerificationError.Deserialization
  | some _ => Except.ok (appendPoint t l e)

/-- Modelled from the spec: `challenge_scalar` derives a scalar
deterministically (via the hash `chal`) from everything absorbed so far
and advances the transcript state. -/
def challengeScalar (chal : List (TEvent F) → String → F)
    (t : List (TEvent F)) (l : String) : F × List (TEvent F) :=
  (chal t l, t ++ [TEvent.chalEvt l])

/-- Domain separator label of the zero-ciphertext proof. -/
def zcDSLabel : String := "zero-ciphertext-proof"

/-- Domain separator label of the ciphertext-commitment equality proof. -/
def ccDSLabel : String := "ciphertext-commitment-equality-proof"

/-- Domain separator label of the ciphertext-ciphertext equality proof. -/
def cceDSLabel : String := "ciphertext-ciphertext-equality-proof"

/-- The zero-ciphertext proof structure (`zero_ciphertext.rs`): two
compressed masking points and one response scalar. -/
structure ZeroCiphertextProof (F : Type) : Type where
  Y_P : Option F
  Y_D : Option F
  z : F
  deriving DecidableEq

/-- The ciphertext-commitment equality proof structure
(`ciphertext_commitment_equality.rs`): three compressed masking points
and three response scalars. -/
structure CiphertextCommitmentEqualityProof (F : Type) : Type where
  Y_0 : Option F
  Y_1 : Option F
  Y_2 : Option F
  z_s : F
  z_x : F
  z_r : F
  deriving DecidableEq

/-- The ciphertext-ciphertext equality proof structure
(`ciphertext_ciphertext_equality.rs`): four compressed masking points
and three response scalars. -/
structure CiphertextCiphertextEqualityProof (F : Type) : Type where
  Y_0 : Option F
  Y_1 : Option F
  Y_2 : Option F
  Y_3 : Option F
  z_s : F
  z_x : F
  z_r : F
  deriving DecidableEq

/-- `ZeroCiphertextProof::new` (`zero_ciphertext.rs` lines 67-98).  The
random masking scalar `y` (sampled from `OsRng` in the source) is an
explicit argument; the updated transcript is returned alongside the
proof. -/
def ZeroCiphertextProof.new (chal : List (TEvent F) → String → F)
    (elgamal_keypair : ElGamalKeypair F) (ciphertext : ElGamalCiphertext F)
    (y : F) (transcript : List (TEvent F)) :
    ZeroCiphertextProof F × List (TEvent F) :=
  let t := appendDomSep transcript zcDSLabel
  let P := elgamal_keypair.pubkey.point
  let s := elgamal_keypair.secret.scalar
  let D := ciphertext.handle.point
  let Y_P := compress (y * P)
  let Y_D := compress (y * D)
  let t := appendPoint t "Y_P" Y_P
  let t := appendPoint t "Y_D" Y_D
  let cp := challengeScalar chal t "c"
  let c := cp.1
  let wp := challengeScalar chal cp.2 "w"
  let z := c * s + y
  (⟨Y_P, Y_D, z⟩, wp.2)

/-- `ZeroCiphertextProof::verify` (`zero_ciphertext.rs` lines 105-164). -/
def ZeroCiphertextProof.verify (chal : List (TEvent F) → String → F)
    (Hgen : F) (pr : ZeroCiphertextProof F)
    (elgamal_pubkey : ElGamalPubkey F) (ciphertext : ElGamalCiphertext F)
    (transcript : List (TEvent F)) :
    Except ZeroCiphertextProofVerificationError Unit :=
  let t := appendDomSep transcript zcDSLabel
  let P := elgamal_pubkey.point
  let C := ciphertext.commitment.point
  let D := ciphertext.handle.point
  match validateAndAppendPoint t "Y_P" pr.Y_P with
  | Except.error e => Except.error ⟨e⟩
  | Except.ok t =>
    let t := appendPoint t "Y_D" pr.Y_D
    let cp := challengeScalar chal t "c"
    let c := cp.1
    let t := appendScalar cp.2 "z" pr.z
    let wp := challengeScalar chal t "w"
    let w := wp.1
    let w_negated := -w
    match decompress pr.Y_P with
    | none => Except.error ⟨SigmaProofVerificationError.Deserialization⟩
    | some Y_P =>
      match decompress pr.Y_D with
      | none => Except.error ⟨SigmaProofVerificationError.Deserialization⟩
      | some Y_D =>
        let check := multiscalarMul
          [pr.z, -c, -(1 : F), w * pr.z, w_negated * c, w_negated]
          [P, Hgen, Y_P, D, C, Y_D]
        if check = 0 then Except.ok ()
        else Except.error ⟨SigmaProofVerificationError.AlgebraicRelation⟩

/-- `CiphertextCommitmentEqualityProof::new`
(`ciphertext_commitment_equality.rs` lines 77-130).  The random masking
scalars `y_s, y_x, y_r` (sampled from `OsRng` in the source) are
explicit arguments; the updated transcript is returned alongside the
proof. -/
def CiphertextCommitmentEqualityProof.new
    (chal : List (TEvent F) → String → F) (Hgen : F)
    (keypair : ElGamalKeypair F) (ciphertext : ElGamalCiphertext F)
    (opening : PedersenOpening F) (amount : Nat) (y_s y_x y_r : F)
    (transcript : List (TEvent F)) :
    CiphertextCommitmentEqualityProof F × List (TEvent F) :=
  let t := appendDomSep transcript ccDSLabel
  let P := keypair.pubkey.point
  let D := ciphertext.handle.point
  let s := keypair.secret.scalar
  let x : F := (amount : F)
  let r := opening.scalar
  let Y_0 := compress (y_s * P)
  let Y_1 := compress (multiscalarMul [y_x, y_s] [Ggen F, D])
  let Y_2 := compress (multiscalarMul [y_x, y_r] [Ggen F, Hgen])
  let t := appendPoint t "Y_0" Y_0
  let t := appendPoint t "Y_1" Y_1
  let t := appendPoint t "Y_2" Y_2
  let cp := challengeScalar chal t "c"
  let c := cp.1
  let wp := challengeScalar chal cp.2 "w"
  let z_s := c * s + y_s
  let z_x := c * x + y_x
  let z_r := c * r + y_r
  (⟨Y_0, Y_1, Y_2, z_s, z_x, z_r⟩, wp.2)

/-- `CiphertextCommitmentEqualityProof::verify`
(`ciphertext_commitment_equality.rs` lines 138-217). -/
def CiphertextCommitmentEqualityProof.verify
    (chal : List (TEvent F) → String → F) (Hgen : F)
    (pr : CiphertextCommitmentEqualityProof F) (pubkey : ElGamalPubkey F)
    (ciphertext : ElGamalCiphertext F) (commitment : PedersenCommitment F)
    (transcript : List (TEvent F)) :
    Except EqualityProofVerificationError Unit :=
  let t := appendDomSep transcript ccDSLabel
  let P := pubkey.point
  let C_ciphertext := ciphertext.commitment.point
  let D := ciphertext.handle.point
  let C_commitment := commitment.point
  match validateAndAppendPoint t "Y_0" pr.Y_0 with
  | Except.error e => Except.error ⟨e⟩
  | Except.ok t =>
  match validateAndAppendPoint t "Y_1" pr.Y_1 with
  | Except.error e => Except.error ⟨e⟩
  | Except.ok t =>
  match validateAndAppendPoint t "Y_2" pr.Y_2 with
  | Except.error e => Except.error ⟨e⟩
  | Except.ok t =>
    let cp := challengeScalar chal t "c"
    let c := cp.1
    let t := appendScalar cp.2 "z_s" pr.z_s
    let t := appendScalar t "z_x" pr.z_x
    let t := appendScalar t "z_r" pr.z_r
    let wp := challengeScalar chal t "w"
    let w := wp.1
    let ww := w * w
    let w_negated := -w
    let ww_negated := -ww
    match decompress pr.Y_0 with
    | none => Except.error ⟨SigmaProofVerificationError.Deserialization⟩
    | some Y_0 =>
    match decompress pr.Y_1 with
    | none => Except.error ⟨SigmaProofVerificationError.Deserialization⟩
    | some Y_1 =>
    match decompress pr.Y_2 with
    | none => Except.error ⟨SigmaProofVerificationError.Deserialization⟩
    | some Y_2 =>
      let check := multiscalarMul
        [pr.z_s, -c, -(1 : F), w * pr.z_x, w * pr.z_s, w_negated * c,
          w_negated, ww * pr.z_x, ww * pr.z_r, ww_negated * c, ww_negated]
        [P, Hgen, Y_0, Ggen F, D, C_ciphertext, Y_1, Ggen F, Hgen,
          C_commitment, Y_2]
      if check = 0 then Except.ok ()
      else Except.error ⟨SigmaProofVerificationError.AlgebraicRelation⟩

/-- `CiphertextCiphertextEqualityProof::new`
(`ciphertext_ciphertext_equality.rs` lines 72-130).  The random masking
scalars are explicit arguments; the updated transcript is returned
alongside the proof. -/
def CiphertextCiphertextEqualityProof.new
    (chal : List (TEvent F) → String → F) (Hgen : F)
    (first_keypair : ElGamalKeypair F) (second_pubkey : ElGamalPubkey F)
    (first_ciphertext : ElGamalCiphertext F)
    (second_opening : PedersenOpening F) (amount : Nat) (y_s y_x y_r : F)
    (transcript : List (TEvent F)) :
    CiphertextCiphertextEqualityProof F × List (TEvent F) :=
  let t := appendDomSep transcript cceDSLabel
  let P_first := first_keypair.pubkey.point
  let D_first := first_ciphertext.handle.point
  let P_second := second_pubkey.point
  let s := first_keypair.secret.scalar
  let x : F := (amount : F)
  let r := second_opening.scalar
  let Y_0 := compress (y_s * P_first)
  let Y_1 := compress (multiscalarMul [y_x, y_s] [Ggen F, D_first])
  let Y_2 := compress (multiscalarMul [y_x, y_r] [Ggen F, Hgen])
  let Y_3 := compress (y_r * P_second)
  let t := appendPoint t "Y_0" Y_0
  let t := appendPoint t "Y_1" Y_1
  let t := appendPoint t "Y_2" Y_2
  let t := appendPoint t "Y_3" Y_3
  let cp := challengeScalar chal t "c"
  let c := cp.1
  let wp := challengeScalar chal cp.2 "w"
  let z_s := c * s + y_s
  let z_x := c * x + y_x
  let z_r := c * r + y_r
  (⟨Y_0, Y_1, Y_2, Y_3, z_s, z_x, z_r⟩, wp.2)

/-- `CiphertextCiphertextEqualityProof::verify`
(`ciphertext_ciphertext_equality.rs` lines 139-235). -/
def CiphertextCiphertextEqualityProof.verify
    (chal : List (TEvent F) → String → F) (Hgen : F)
    (pr : CiphertextCiphertextEqualityProof F)
    (first_pubkey second_pubkey : ElGamalPubkey F)
    (first_ciphertext second_ciphertext : ElGamalCiphertext F)
    (transcript : List (TEvent F)) :
    Except EqualityProofVerificationError Unit :=
  let t := appendDomSep transcript cceDSLabel
  let P_first := first_pubkey.point
  let C_first := first_ciphertext.commitment.point
  let D_first := first_ciphertext.handle.point
  let P_second := second_pubkey.point
  let C_second := second_ciphertext.commitment.point
  let D_second := second_ciphertext.handle.point
  match validateAndAppendPoint t "Y_0" pr.Y_0 with
  | Except.error e => Except.error ⟨e⟩
  | Except.ok t =>
  match validateAndAppendPoint t "Y_1" pr.Y_1 with
  | Except.error e => Except.error ⟨e⟩
  | Except.ok t =>
  match validateAndAppendPoint t "Y_2" pr.Y_2 with
  | Except.error e => Except.error ⟨e⟩
  | Except.ok t =>
  match validateAndAppendPoint t "Y_3" pr.Y_3 with
  | Except.error e => Except.error ⟨e⟩
  | Except.ok t =>
    let cp := challengeScalar chal t "c"
    let c := cp.1
    let t := appendScalar cp.2 "z_s" pr.z_s
    let t := appendScalar t "z_x" pr.z_x
    let t := appendScalar t "z_r" pr.z_r
    let wp := challengeScalar chal t "w"
    let w := wp.1
    let ww := w * w
    let www := w * ww
    let w_negated := -w
    let ww_negated := -ww
    let www_negated := -www
    match decompress pr.Y_0 with
    | none => Except.error ⟨SigmaProofVerificationError.Deserialization⟩
    | some Y_0 =>
    match decompress pr.Y_1 with
    | none => Except.error ⟨SigmaProofVerificationError.Deserialization⟩
    | some Y_1 =>
    match decompress pr.Y_2 with
    | none => Except.error ⟨SigmaProofVerificationError.Deserialization⟩
    | some Y_2 =>
    match decompress pr.Y_3 with
    | none => Except.error ⟨SigmaProofVerificationError.Deserialization⟩
    | some Y_3 =>
      let check := multiscalarMul
        [pr.z_s, -c, -(1 : F), w * pr.z_x, w * pr.z_s, w_negated * c,
          w_negated, ww * pr.z_x, ww * pr.z_r, ww_negated * c, ww_negated,
          www * pr.z_r, www_negated * c, www_negated]
        [P_first, Hgen, Y_0, Ggen F, D_first, C_first, Y_1, Ggen F, Hgen,
          C_second, Y_2, P_second, D_second, Y_3]
      if check = 0 then Except.ok ()
      else Except.error ⟨SigmaProofVerificationError.AlgebraicRelation⟩

end Protocol

/-- The canonical encoding width of a point or scalar (`UNIT_LEN`, 32
bytes). -/
def UNIT_LEN : Nat := 32

section Codec

variable {F : Type} [Field F] [DecidableEq F]
variable {B : Type}

/-- Fuel-indexed model of Rust's `slice::chunks`: splits a list into
consecutive chunks of `n` elements, the last chunk possibly shorter.
The fuel (instantiated with the list length) makes the recursion
structural. -/
def rustChunksFuel (n : Nat) : Nat → List B → List (List B)
  | _, [] => []
  | 0, _ :: _ => []
  | fuel + 1, a :: rest =>
    (a :: rest.take (n - 1)) :: rustChunksFuel n fuel (rest.drop (n - 1))

/-- Rust's `slice::chunks(n)` on a byte list (for `n > 0`): consecutive
chunks of `n` elements, the last possibly shorter; `chunks.next()` calls
become list indexing. -/
def rustChunks (n : Nat) (l : List B) : List (List B) :=
  rustChunksFuel n l.length l

/-- Modelled from the spec: `ristretto_point_from_optional_slice`
(declared in `sigma_proofs/mod.rs`, not part of the sources under
verification).  Per the spec's codec contract, a group-element chunk
must be exactly one encoding width long and must decompress to a valid
curve point; anything else is a `Deserialization` error.  `decPt` is the
external curve library's decoder from a 32-byte chunk to a point. -/
def ristretto_point_from_optional_slice (decPt : List B → Option F)
    (os : Option (List B)) :
    Except SigmaProofVerificationError (Option F) :=
  match os with
  | none => Except.error SigmaProofVerificationError.Deserialization
  | some chunk =>
    if chunk.length = UNIT_LEN then
      match decPt chunk with
      | some p => Except.ok (compress p)
      | none => Except.error SigmaProofVerificationError.Deserialization
    else Except.error SigmaProofVerificationError.Deserialization

/-- Modelled from the spec: `canonical_scalar_from_optional_slice`
(declared in `sigma_proofs/mod.rs`, not part of the sources under
verification).  Per the spec's codec contract, a scalar chunk must be
exactly one encoding width long and must decode to a canonical value
strictly below the field order; anything else is a `Deserialization`
error.  `decSc` is the external library's canonical scalar decoder. -/
def canonical_scalar_from_optional_slice (decSc : List B → Option F)
    (os : Option (List B)) : Except SigmaProofVerificationError F :=
  match os with
  | none => Except.error SigmaProofVerificationError.Deserialization
  | some chunk =>
    if chunk.length = UNIT_LEN then
      match decSc chunk with
      | some v => Except.ok v
      | none => Except.error SigmaProofVerificationError.Deserialization
    else Except.error SigmaProofVerificationError.Deserialization

/-- `ZeroCiphertextProof::to_bytes` (`zero_ciphertext.rs` lines 166-173):
the concatenation of the fixed-width encodings of the three fields in
declared order.  `encPt` and `encSc` are the external library's byte
encoders. -/
def ZeroCiphertextProof.to_bytes (encPt : Option F → List B)
    (encSc : F → List B) (pr : ZeroCiphertextProof F) : List B :=
  encPt pr.Y_P ++ encPt pr.Y_D ++ encSc pr.z

/-- `ZeroCiphertextProof::from_bytes` (`zero_ciphertext.rs` lines
175-181): three `chunks.next()` calls through the two optional-slice
helpers. -/
def ZeroCiphertextProof.from_bytes (decPt decSc : List B → Option F)
    (bytes : List B) :
    Except ZeroCiphertextProofVerificationError (ZeroCiphertextProof F) :=
  let chunks := rustChunks UNIT_LEN bytes
  match ristretto_point_from_optional_slice decPt chunks[0]? with
  | Except.error e => Except.error ⟨e⟩
  | Except.ok Y_P =>
  match ristretto_point_from_optional_slice decPt chunks[1]? with
  | Except.error e => Except.error ⟨e⟩
  | Except.ok Y_D =>
  match canonical_scalar_from_optional_slice decSc chunks[2]? with
  | Except.error e => Except.error ⟨e⟩
  | Except.ok z => Except.ok ⟨Y_P, Y_D, z⟩

/-- `CiphertextCommitmentEqualityProof::to_bytes`
(`ciphertext_commitment_equality.rs` lines 219-229). -/
def CiphertextCommitmentEqualityProof.to_bytes (encPt : Option F → List B)
    (encSc : F → List B) (pr : CiphertextCommitmentEqualityProof F) :
    List B :=
  encPt pr.Y_0 ++ encPt pr.Y_1 ++ encPt pr.Y_2 ++ encSc pr.z_s ++
    encSc pr.z_x ++ encSc pr.z_r

/-- `CiphertextCommitmentEqualityProof::from_bytes`
(`ciphertext_commitment_equality.rs` lines 231-248). -/
def CiphertextCommitmentEqualityProof.from_bytes
    (decPt decSc : List B → Option F) (bytes : List B) :
    Except EqualityProofVerificationError
      (CiphertextCommitmentEqualityProof F) :=
  let chunks := rustChunks UNIT_LEN bytes
  match ristretto_point_from_optional_slice decPt chunks[0]? with
  | Except.error e => Except.error ⟨e⟩
  | Except.ok Y_0 =>
  match ristretto_point_from_optional_slice decPt chunks[1]? with
  | Except.error e => Except.error ⟨e⟩
  | Except.ok Y_1 =>
  match ristretto_point_from_optional_slice decPt chunks[2]? with
  | Except.error e => Except.error ⟨e⟩
  | Except.ok Y_2 =>
  match canonical_scalar_from_optional_slice decSc chunks[3]? with
  | Except.error e => Except.error ⟨e⟩
  | Except.ok z_s =>
  match canonical_scalar_from_optional_slice decSc chunks[4]? with
  | Except.error e => Except.error ⟨e⟩
  | Except.ok z_x =>
  match canonical_scalar_from_optional_slice decSc chunks[5]? with
  | Except.error e => Except.error ⟨e⟩
  | Except.ok z_r => Except.ok ⟨Y_0, Y_1, Y_2, z_s, z_x, z_r⟩

/-- `CiphertextCiphertextEqualityProof::to_bytes`
(`ciphertext_ciphertext_equality.rs` lines 237-250). -/
def CiphertextCiphertextEqualityProof.to_bytes (encPt : Option F → List B)
    (encSc : F → List B) (pr : CiphertextCiphertextEqualityProof F) :
    List B :=
  encPt pr.Y_0 ++ encPt pr.Y_1 ++ encPt pr.Y_2 ++ encPt pr.Y_3 ++
    encSc pr.z_s ++ encSc pr.z_x ++ encSc pr.z_r

/-- `CiphertextCiphertextEqualityProof::from_bytes`
(`ciphertext_ciphertext_equality.rs` lines 252-272). -/
def CiphertextCiphertextEqualityProof.from_bytes
    (decPt decSc : List B → Option F) (bytes : List B) :
    Except EqualityProofVerificationError
      (CiphertextCiphertextEqualityProof F) :=
  let chunks := rustChunks UNIT_LEN bytes
  match ristretto_point_from_optional_slice decPt chunks[0]? with
  | Except.error e => Except.error ⟨e⟩
  | Except.ok Y_0 =>
  match ristretto_point_from_optional_slice decPt chunks[1]? with
  | Except.error e => Except.error ⟨e⟩
  | Except.ok Y_1 =>
  match ristretto_point_from_optional_slice decPt chunks[2]? with
  | Except.error e => Except.error ⟨e⟩
  | Except.ok Y_2 =>
  match ristretto_point_from_optional_slice decPt chunks[3]? with
  | Except.error e => Except.error ⟨e⟩
  | Except.ok Y_3 =>
  match canonical_scalar_from_optional_slice decSc chunks[4]? with
  | Except.error e => Except.error ⟨e⟩
  | Except.ok z_s =>
  match canonical_scalar_from_optional_slice decSc chunks[5]? with
  | Except.error e => Except.error ⟨e⟩
  | Except.ok z_x =>
  match canonical_scalar_from_optional_slice decSc chunks[6]? with
  | Except.error e => Except.error ⟨e⟩
  | Except.ok z_r => Except.ok ⟨Y_0, Y_1, Y_2, Y_3, z_s, z_x, z_r⟩

end Codec

section ChunkLemmas


variable {B : Type}

lemma rustChunksFuel_congr (n : Nat) :
    ∀ (f1 : Nat) (l : List B) (f2 : Nat), l.length ≤ f1 →
      l.length ≤ f2 → rustChunksFuel n f1 l = rustChunksFuel n f2 l := by
  intro f1
  induction f1 with
  | zero =>
    intro l f2 h1 _
    have : l = [] := List.eq_nil_of_length_eq_zero (Nat.le_zero.mp h1)
    subst this
    cases f2 <;> rfl
  | succ g ih =>
    intro l f2 h1 h2
    cases l with
    | nil => cases f2 <;> rfl
    | cons a rest =>
      simp only [List.length_cons] at h1 h2
      cases f2 with
      | zero => omega
      | succ g2 =>
        simp only [rustChunksFuel]
        congr 1
        have hd : (rest.drop (n - 1)).length ≤ rest.length := by
          simp [List.length_drop]
        apply ih <;> omega

lemma rustChunks_cons (n : Nat) (hn : n ≠ 0) (l1 l2 : List B)
    (h : l1.length = n) :
    rustChunks n (l1 ++ l2) = l1 :: rustChunks n l2 := by
  cases l1 with
  | nil => simp at h; omega
  | cons a rest =>
    have hrest : rest.length = n - 1 := by
      simp only [List.length_cons] at h; omega
    have h1 : (rest ++ l2).take (n - 1) = rest := by
      rw [← hrest]; exact List.take_left rest l2
    have h2 : (rest ++ l2).drop (n - 1) = l2 := by
      rw [← hrest]; exact List.drop_left rest l2
    simp only [List.cons_append, rustChunks, List.length_cons,
      rustChunksFuel, List.append_eq, h1, h2]
    congr 1
    apply rustChunksFuel_congr
    · simp only [List.length_append]; omega
    · omega

lemma rustChunks_singleton (n : Nat) (hn : n ≠ 0) (l : List B)
    (h : l.length = n) : rustChunks n l = [l] := by
  have := rustChunks_cons n hn l [] h
  simpa using this

lemma rustChunks_step (n : Nat) (a : B) (rest : List B) :
    rustChunks n (a :: rest) =
      (a :: rest.take (n - 1)) :: rustChunks n (rest.drop (n - 1)) := by
  simp only [rustChunks, List.length_cons, rustChunksFuel]
  congr 1
  apply rustChunksFuel_congr
  · simp [List.length_drop]
  · omega

lemma rustChunks_getElem (n : Nat) (hn : n ≠ 0) :
    ∀ (i : Nat) (l : List B),
      (rustChunks n l)[i]? =
        if l.length ≤ n * i then none
        else some ((l.drop (n * i)).take n) := by
  intro i
  induction i with
  | zero =>
    intro l
    cases l with
    | nil => simp [rustChunks, rustChunksFuel]
    | cons a rest =>
      rw [rustChunks_step]
      simp only [Nat.mul_zero, List.drop_zero, List.getElem?_cons_zero]
      rw [if_neg (by simp)]
      congr 2
      cases n with
      | zero => omega
      | succ m => simp [List.take_succ_cons]
  | succ j ih =>
    intro l
    cases l with
    | nil => simp [rustChunks, rustChunksFuel]
    | cons a rest =>
      rw [rustChunks_step]
      simp only [List.getElem?_cons_succ]
      rw [ih]
      have hdrop : rest.drop (n - 1) = (a :: rest).drop n := by
        cases n with
        | zero => omega
        | succ m => simp
      rw [hdrop]
      have hlen : ((a :: rest).drop n).length = (a :: rest).length - n := by
        simp [List.length_drop]
      have hmul : n * (j + 1) = n + n * j := by ring
      by_cases hc : (a :: rest).length ≤ n * (j + 1)
      · have hc2 : ((a :: rest).drop n).length ≤ n * j := by
          rw [hlen]; omega
        rw [if_pos hc2, if_pos hc]
      · have hc2 : ¬((a :: rest).drop n).length ≤ n * j := by
          rw [hlen]; omega
        rw [if_neg hc2, if_neg hc]
        rw [List.drop_drop, Nat.mul_succ, Nat.add_comm n (n * j)]

end ChunkLemmas

section CodecLemmas


variable {F : Type} [Field F] [DecidableEq F]
variable {B : Type}

lemma rpfos_ok_shape (decPt : List B → Option F) (os : Option (List B))
    (y : Option F)
    (h : ristretto_point_from_optional_slice decPt os = Except.ok y) :
    ∃ l, os = some l ∧ l.length = UNIT_LEN := by
  rcases os with _ | l
  · simp [ristretto_point_from_optional_slice] at h
  · by_cases hl : l.length = UNIT_LEN
    · exact ⟨l, rfl, hl⟩
    · simp [ristretto_point_from_optional_slice, hl] at h

lemma csfos_ok_shape (decSc : List B → Option F) (os : Option (List B))
    (v : F)
    (h : canonical_scalar_from_optional_slice decSc os = Except.ok v) :
    ∃ l, os = some l ∧ l.length = UNIT_LEN := by
  rcases os with _ | l
  · simp [canonical_scalar_from_optional_slice] at h
  · by_cases hl : l.length = UNIT_LEN
    · exact ⟨l, rfl, hl⟩
    · simp [canonical_scalar_from_optional_slice, hl] at h

lemma rpfos_cases (decPt : List B → Option F) (os : Option (List B)) :
    (∃ y, ristretto_point_from_optional_slice (F := F) decPt os =
      Except.ok y) ∨
    ristretto_point_from_optional_slice (F := F) decPt os =
      Except.error SigmaProofVerificationError.Deserialization := by
  rcases os with _ | l
  · right; rfl
  · by_cases hl : l.length = UNIT_LEN
    · cases hd : decPt l with
      | none =>
        right; simp [ristretto_point_from_optional_slice, hl, hd]
      | some p =>
        left
        exact ⟨compress p,
          by simp [ristretto_point_from_optional_slice, hl, hd]⟩
    · right; simp [ristretto_point_from_optional_slice, hl]

lemma csfos_cases (decSc : List B → Option F) (os : Option (List B)) :
    (∃ v, canonical_scalar_from_optional_slice decSc os =
      Except.ok v) ∨
    canonical_scalar_from_optional_slice decSc os =
      Except.error SigmaProofVerificationError.Deserialization := by
  rcases os with _ | l
  · right; rfl
  · by_cases hl : l.length = UNIT_LEN
    · cases hd : decSc l with
      | none =>
        right; simp [canonical_scalar_from_optional_slice, hl, hd]
      | some v =>
        left
        exact ⟨v, by simp [canonical_scalar_from_optional_slice, hl, hd]⟩
    · right; simp [canonical_scalar_from_optional_slice, hl]

lemma chunk_some_bound (i : Nat) (bytes l : List B)
    (hl : (rustChunks UNIT_LEN bytes)[i]? = some l)
    (hlen : l.length = UNIT_LEN) :
    UNIT_LEN * (i + 1) ≤ bytes.length := by
  rw [rustChunks_getElem UNIT_LEN (by decide) i bytes] at hl
  by_cases hc : bytes.length ≤ UNIT_LEN * i
  · rw [if_pos hc] at hl; exact absurd hl (by simp)
  · rw [if_neg hc] at hl
    have hle : l = (bytes.drop (UNIT_LEN * i)).take UNIT_LEN := by
      exact (Option.some.injEq _ _).mp hl.symm
    subst hle
    simp only [List.length_take, List.length_drop] at hlen
    simp only [UNIT_LEN] at hlen hc ⊢
    omega

lemma zc_from_bytes_ok_length (decPt decSc : List B → Option F)
    (bytes : List B) (pr : ZeroCiphertextProof F)
    (h : ZeroCiphertextProof.from_bytes decPt decSc bytes =
      Except.ok pr) :
    3 * UNIT_LEN ≤ bytes.length := by
  simp only [ZeroCiphertextProof.from_bytes] at h
  split at h
  · exact absurd h (by simp)
  split at h
  · exact absurd h (by simp)
  split at h
  · exact absurd h (by simp)
  case _ _ _ _ _ _ heq =>
    obtain ⟨l, hl, hlen⟩ := csfos_ok_shape decSc _ _ heq
    have := chunk_some_bound 2 bytes l hl hlen
    simp only [UNIT_LEN] at this ⊢
    omega


lemma rustChunks_getElem_take (i N : Nat) (hi : i < N) (l : List B) :
    (rustChunks UNIT_LEN (l.take (N * UNIT_LEN)))[i]? =
      (rustChunks UNIT_LEN l)[i]? := by
  rw [rustChunks_getElem UNIT_LEN (by decide),
    rustChunks_getElem UNIT_LEN (by decide)]
  have hlen : (l.take (N * UNIT_LEN)).length = min (N * UNIT_LEN) l.length := by
    simp
  have hbound : UNIT_LEN * i + UNIT_LEN ≤ N * UNIT_LEN := by
    simp only [UNIT_LEN]; omega
  by_cases hc : l.length ≤ UNIT_LEN * i
  · rw [if_pos, if_pos hc]
    rw [hlen]
    simp only [UNIT_LEN] at hc ⊢
    omega
  · rw [if_neg, if_neg hc]
    · rw [List.drop_take]
      rw [List.take_take]
      have hmin : UNIT_LEN ⊓ (N * UNIT_LEN - UNIT_LEN * i) = UNIT_LEN := by
        rw [inf_eq_min]
        apply min_eq_left
        simp only [UNIT_LEN] at hbound ⊢
        omega
      rw [hmin]
    · rw [hlen]
      simp only [UNIT_LEN] at hc hbound ⊢
      omega

lemma zc_from_bytes_take (decPt decSc : List B → Option F)
    (bytes : List B) :
    ZeroCiphertextProof.from_bytes (F := F) decPt decSc bytes =
      ZeroCiphertextProof.from_bytes decPt decSc
        (bytes.take (3 * UNIT_LEN)) := by
  simp only [ZeroCiphertextProof.from_bytes]
  rw [rustChunks_getElem_take 0 3 (by norm_num),
    rustChunks_getElem_take 1 3 (by norm_num),
    rustChunks_getElem_take 2 3 (by norm_num)]

lemma zc_from_bytes_cases (decPt decSc : List B → Option F)
    (bytes : List B) :
    (∃ pr, ZeroCiphertextProof.from_bytes (F := F) decPt decSc bytes =
      Except.ok pr) ∨
    ZeroCiphertextProof.from_bytes (F := F) decPt decSc bytes =
      Except.error ⟨SigmaProofVerificationError.Deserialization⟩ := by
  simp only [ZeroCiphertextProof.from_bytes]
  rcases rpfos_cases decPt ((rustChunks UNIT_LEN bytes)[0]?) with
    ⟨y0, h0⟩ | h0
  · rw [h0]
    rcases rpfos_cases decPt ((rustChunks UNIT_LEN bytes)[1]?) with
      ⟨y1, h1⟩ | h1
    · rw [h1]
      rcases csfos_cases decSc ((rustChunks UNIT_LEN bytes)[2]?) with
        ⟨v, h2⟩ | h2
      · rw [h2]
        exact Or.inl ⟨⟨y0, y1, v⟩, rfl⟩
      · rw [h2]
        exact Or.inr rfl
    · rw [h1]
      exact Or.inr rfl
  · rw [h0]
    exact Or.inr rfl

lemma cc_from_bytes_ok_length (decPt decSc : List B → Option F)
    (bytes : List B) (pr : CiphertextCommitmentEqualityProof F)
    (h : CiphertextCommitmentEqualityProof.from_bytes decPt decSc bytes =
      Except.ok pr) :
    6 * UNIT_LEN ≤ bytes.length := by
  simp only [CiphertextCommitmentEqualityProof.from_bytes] at h
  split at h
  · exact absurd h (by simp)
  split at h
  · exact absurd h (by simp)
  split at h
  · exact absurd h (by simp)
  split at h
  · exact absurd h (by simp)
  split at h
  · exact absurd h (by simp)
  split at h
  · exact absurd h (by simp)
  case _ _ _ _ _ _ _ _ _ _ _ _ heq =>
    obtain ⟨l, hl, hlen⟩ := csfos_ok_shape decSc _ _ heq
    have := chunk_some_bound 5 bytes l hl hlen
    simp only [UNIT_LEN] at this ⊢
    omega

lemma cce_from_bytes_ok_length (decPt decSc : List B → Option F)
    (bytes : List B) (pr : CiphertextCiphertextEqualityProof F)
    (h : CiphertextCiphertextEqualityProof.from_bytes decPt decSc bytes =
      Except.ok pr) :
    7 * UNIT_LEN ≤ bytes.length := by
  simp only [CiphertextCiphertextEqualityProof.from_bytes] at h
  split at h
  · exact absurd h (by simp)
  split at h
  · exact absurd h (by simp)
  split at h
  · exact absurd h (by simp)
  split at h
  · exact absurd h (by simp)
  split at h
  · exact absurd h (by simp)
  split at h
  · exact absurd h (by simp)
  split at h
  · exact absurd h (by simp)
  case _ _ _ _ _ _ _ _ _ _ _ _ _ _ heq =>
    obtain ⟨l, hl, hlen⟩ := csfos_ok_shape decSc _ _ heq
    have := chunk_some_bound 6 bytes l hl hlen
    simp only [UNIT_LEN] at this ⊢
    omega

lemma cc_from_bytes_take (decPt decSc : List B → Option F)
    (bytes : List B) :
    CiphertextCommitmentEqualityProof.from_bytes (F := F) decPt decSc
        bytes =
      CiphertextCommitmentEqualityProof.from_bytes decPt decSc
        (bytes.take (6 * UNIT_LEN)) := by
  simp only [CiphertextCommitmentEqualityProof.from_bytes]
  rw [rustChunks_getElem_take 0 6 (by norm_num),
    rustChunks_getElem_take 1 6 (by norm_num),
    rustChunks_getElem_take 2 6 (by norm_num),
    rustChunks_getElem_take 3 6 (by norm_num),
    rustChunks_getElem_take 4 6 (by norm_num),
    rustChunks_getElem_take 5 6 (by norm_num)]

lemma cce_from_bytes_take (decPt decSc : List B → Option F)
    (bytes : List B) :
    CiphertextCiphertextEqualityProof.from_bytes (F := F) decPt decSc
        bytes =
      CiphertextCiphertextEqualityProof.from_bytes decPt decSc
        (bytes.take (7 * UNIT_LEN)) := by
  simp only [CiphertextCiphertextEqualityProof.from_bytes]
  rw [rustChunks_getElem_take 0 7 (by norm_num),
    rustChunks_getElem_take 1 7 (by norm_num),
    rustChunks_getElem_take 2 7 (by norm_num),
    rustChunks_getElem_take 3 7 (by norm_num),
    rustChunks_getElem_take 4 7 (by norm_num),
    rustChunks_getElem_take 5 7 (by norm_num),
    rustChunks_getElem_take 6 7 (by norm_num)]

lemma cc_from_bytes_cases (decPt decSc : List B → Option F)
    (bytes : List B) :
    (∃ pr, CiphertextCommitmentEqualityProof.from_bytes (F := F) decPt
      decSc bytes = Except.ok pr) ∨
    CiphertextCommitmentEqualityProof.from_bytes (F := F) decPt decSc
      bytes =
      Except.error ⟨SigmaProofVerificationError.Deserialization⟩ := by
  simp only [CiphertextCommitmentEqualityProof.from_bytes]
  rcases rpfos_cases decPt ((rustChunks UNIT_LEN bytes)[0]?) with
    ⟨y0, h0⟩ | h0
  case inr => rw [h0]; exact Or.inr rfl
  rw [h0]
  rcases rpfos_cases decPt ((rustChunks UNIT_LEN bytes)[1]?) with
    ⟨y1, h1⟩ | h1
  case inr => rw [h1]; exact Or.inr rfl
  rw [h1]
  rcases rpfos_cases decPt ((rustChunks UNIT_LEN bytes)[2]?) with
    ⟨y2, h2⟩ | h2
  case inr => rw [h2]; exact Or.inr rfl
  rw [h2]
  rcases csfos_cases decSc ((rustChunks UNIT_LEN bytes)[3]?) with
    ⟨v3, h3⟩ | h3
  case inr => rw [h3]; exact Or.inr rfl
  rw [h3]
  rcases csfos_cases decSc ((rustChunks UNIT_LEN bytes)[4]?) with
    ⟨v4, h4⟩ | h4
  case inr => rw [h4]; exact Or.inr rfl
  rw [h4]
  rcases csfos_cases decSc ((rustChunks UNIT_LEN bytes)[5]?) with
    ⟨v5, h5⟩ | h5
  case inr => rw [h5]; exact Or.inr rfl
  rw [h5]
  exact Or.inl ⟨⟨y0, y1, y2, v3, v4, v5⟩, rfl⟩

lemma cce_from_bytes_cases (decPt decSc : List B → Option F)
    (bytes : List B) :
    (∃ pr, CiphertextCiphertextEqualityProof.from_bytes (F := F) decPt
      decSc bytes = Except.ok pr) ∨
    CiphertextCiphertextEqualityProof.from_bytes (F := F) decPt decSc
      bytes =
      Except.error ⟨SigmaProofVerificationError.Deserialization⟩ := by
  simp only [CiphertextCiphertextEqualityProof.from_bytes]
  rcases rpfos_cases decPt ((rustChunks UNIT_LEN bytes)[0]?) with
    ⟨y0, h0⟩ | h0
  case inr => rw [h0]; exact Or.inr rfl
  rw [h0]
  rcases rpfos_cases decPt ((rustChunks UNIT_LEN bytes)[1]?) with
    ⟨y1, h1⟩ | h1
  case inr => rw [h1]; exact Or.inr rfl
  rw [h1]
  rcases rpfos_cases decPt ((rustChunks UNIT_LEN bytes)[2]?) with
    ⟨y2, h2⟩ | h2
  case inr => rw [h2]; exact Or.inr rfl
  rw [h2]
  rcases rpfos_cases decPt ((rustChunks UNIT_LEN bytes)[3]?) with
    ⟨y3, h3⟩ | h3
  case inr => rw [h3]; exact Or.inr rfl
  rw [h3]
  rcases csfos_cases decSc ((rustChunks UNIT_LEN bytes)[4]?) with
    ⟨v4, h4⟩ | h4
  case inr => rw [h4]; exact Or.inr rfl
  rw [h4]
  rcases csfos_cases decSc ((rustChunks UNIT_LEN bytes)[5]?) with
    ⟨v5, h5⟩ | h5
  case inr => rw [h5]; exact Or.inr rfl
  rw [h5]
  rcases csfos_cases decSc ((rustChunks UNIT_LEN bytes)[6]?) with
    ⟨v6, h6⟩ | h6
  case inr => rw [h6]; exact Or.inr rfl
  rw [h6]
  exact Or.inl ⟨⟨y0, y1, y2, y3, v4, v5, v6⟩, rfl⟩

/-- A chunk read at a group-element position is invalid: missing, not
exactly one encoding width long, or failing decompression. -/
def badPointChunk (decPt : List B → Option F) (os : Option (List B)) :
    Prop :=
  os = none ∨ ∃ l, os = some l ∧ (l.length ≠ UNIT_LEN ∨ decPt l = none)

/-- A chunk read at a scalar position is invalid: missing, not exactly
one encoding width long, or not a canonical scalar encoding. -/
def badScalarChunk (decSc : List B → Option F) (os : Option (List B)) :
    Prop :=
  os = none ∨ ∃ l, os = some l ∧ (l.length ≠ UNIT_LEN ∨ decSc l = none)

lemma rpfos_error_of_bad (decPt : List B → Option F)
    (os : Option (List B)) (h : badPointChunk decPt os) :
    ristretto_point_from_optional_slice (F := F) decPt os =
      Except.error SigmaProofVerificationError.Deserialization := by
  rcases h with h | ⟨l, rfl, hbad⟩
  · subst h; rfl
  · rcases hbad with hlen | hdec
    · simp [ristretto_point_from_optional_slice, hlen]
    · by_cases hlen : l.length = UNIT_LEN
      · simp [ristretto_point_from_optional_slice, hlen, hdec]
      · simp [ristretto_point_from_optional_slice, hlen]

lemma csfos_error_of_bad (decSc : List B → Option F)
    (os : Option (List B)) (h : badScalarChunk decSc os) :
    canonical_scalar_from_optional_slice (F := F) decSc os =
      Except.error SigmaProofVerificationError.Deserialization := by
  rcases h with h | ⟨l, rfl, hbad⟩
  · subst h; rfl
  · rcases hbad with hlen | hdec
    · simp [canonical_scalar_from_optional_slice, hlen]
    · by_cases hlen : l.length = UNIT_LEN
      · simp [canonical_scalar_from_optional_slice, hlen, hdec]
      · simp [canonical_scalar_from_optional_slice, hlen]

lemma zc_from_bytes_bad (decPt decSc : List B → Option F)
    (bytes : List B)
    (h : badPointChunk decPt ((rustChunks UNIT_LEN bytes)[0]?) ∨
      badPointChunk decPt ((rustChunks UNIT_LEN bytes)[1]?) ∨
      badScalarChunk decSc ((rustChunks UNIT_LEN bytes)[2]?)) :
    ZeroCiphertextProof.from_bytes (F := F) decPt decSc bytes =
      Except.error ⟨SigmaProofVerificationError.Deserialization⟩ := by
  simp only [ZeroCiphertextProof.from_bytes]
  rcases h with h | h | h
  · rw [rpfos_error_of_bad decPt _ h]
  · rcases rpfos_cases decPt ((rustChunks UNIT_LEN bytes)[0]?) with
      ⟨y0, h0⟩ | h0
    · rw [h0, rpfos_error_of_bad decPt _ h]
    · rw [h0]
  · rcases rpfos_cases decPt ((rustChunks UNIT_LEN bytes)[0]?) with
      ⟨y0, h0⟩ | h0
    · rcases rpfos_cases decPt ((rustChunks UNIT_LEN bytes)[1]?) with
        ⟨y1, h1⟩ | h1
      · rw [h0, h1, csfos_error_of_bad decSc _ h]
      · rw [h0, h1]
    · rw [h0]

lemma cc_from_bytes_bad (decPt decSc : List B → Option F)
    (bytes : List B)
    (h : badPointChunk decPt ((rustChunks UNIT_LEN bytes)[0]?) ∨
      badPointChunk decPt ((rustChunks UNIT_LEN bytes)[1]?) ∨
      badPointChunk decPt ((rustChunks UNIT_LEN bytes)[2]?) ∨
      badScalarChunk decSc ((rustChunks UNIT_LEN bytes)[3]?) ∨
      badScalarChunk decSc ((rustChunks UNIT_LEN bytes)[4]?) ∨
      badScalarChunk decSc ((rustChunks UNIT_LEN bytes)[5]?)) :
    CiphertextCommitmentEqualityProof.from_bytes (F := F) decPt decSc
        bytes =
      Except.error ⟨SigmaProofVerificationError.Deserialization⟩ := by
  simp only [CiphertextCommitmentEqualityProof.from_bytes]
  rcases h with h | h | h | h | h | h
  · rw [rpfos_error_of_bad decPt _ h]
  · rcases rpfos_cases decPt ((rustChunks UNIT_LEN bytes)[0]?) with
      ⟨y0, h0⟩ | h0
    · rw [h0, rpfos_error_of_bad decPt _ h]
    · rw [h0]
  · rcases rpfos_cases decPt ((rustChunks UNIT_LEN bytes)[0]?) with
      ⟨y0, h0⟩ | h0
    · rcases rpfos_cases decPt ((rustChunks UNIT_LEN bytes)[1]?) with
        ⟨y1, h1⟩ | h1
      · rw [h0, h1, rpfos_error_of_bad decPt _ h]
      · rw [h0, h1]
    · rw [h0]
  · rcases rpfos_cases decPt ((rustChunks UNIT_LEN bytes)[0]?) with
      ⟨y0, h0⟩ | h0
    · rcases rpfos_cases decPt ((rustChunks UNIT_LEN bytes)[1]?) with
        ⟨y1, h1⟩ | h1
      · rcases rpfos_cases decPt ((rustChunks UNIT_LEN bytes)[2]?) with
          ⟨y2, h2⟩ | h2
        · rw [h0, h1, h2, csfos_error_of_bad decSc _ h]
        · rw [h0, h1, h2]
      · rw [h0, h1]
    · rw [h0]
  · rcases rpfos_cases decPt ((rustChunks UNIT_LEN bytes)[0]?) with
      ⟨y0, h0⟩ | h0
    · rcases rpfos_cases decPt ((rustChunks UNIT_LEN bytes)[1]?) with
        ⟨y1, h1⟩ | h1
      · rcases rpfos_cases decPt ((rustChunks UNIT_LEN bytes)[2]?) with
          ⟨y2, h2⟩ | h2
        · rcases csfos_cases decSc ((rustChunks UNIT_LEN bytes)[3]?) with
            ⟨v3, h3⟩ | h3
          · rw [h0, h1, h2, h3, csfos_error_of_bad decSc _ h]
          · rw [h0, h1, h2, h3]
        · rw [h0, h1, h2]
      · rw [h0, h1]
    · rw [h0]
  · rcases rpfos_cases decPt ((rustChunks UNIT_LEN bytes)[0]?) with
      ⟨y0, h0⟩ | h0
    · rcases rpfos_cases decPt ((rustChunks UNIT_LEN bytes)[1]?) with
        ⟨y1, h1⟩ | h1
      · rcases rpfos_cases decPt ((rustChunks UNIT_LEN bytes)[2]?) with
          ⟨y2, h2⟩ | h2
        · rcases csfos_cases decSc ((rustChunks UNIT_LEN bytes)[3]?) with
            ⟨v3, h3⟩ | h3
          · rcases csfos_cases decSc
              ((rustChunks UNIT_LEN bytes)[4]?) with ⟨v4, h4⟩ | h4
            · rw [h0, h1, h2, h3, h4, csfos_error_of_bad decSc _ h]
            · rw [h0, h1, h2, h3, h4]
          · rw [h0, h1, h2, h3]
        · rw [h0, h1, h2]
      · rw [h0, h1]
    · rw [h0]

lemma cce_from_bytes_bad (decPt decSc : List B → Option F)
    (bytes : List B)
    (h : badPointChunk decPt ((rustChunks UNIT_LEN bytes)[0]?) ∨
      badPointChunk decPt ((rustChunks UNIT_LEN bytes)[1]?) ∨
      badPointChunk decPt ((rustChunks UNIT_LEN bytes)[2]?) ∨
      badPointChunk decPt ((rustChunks UNIT_LEN bytes)[3]?) ∨
      badScalarChunk decSc ((rustChunks UNIT_LEN bytes)[4]?) ∨
      badScalarChunk decSc ((rustChunks UNIT_LEN bytes)[5]?) ∨
      badScalarChunk decSc ((rustChunks UNIT_LEN bytes)[6]?)) :
    CiphertextCiphertextEqualityProof.from_bytes (F := F) decPt decSc
        bytes =
      Except.error ⟨SigmaProofVerificationError.Deserialization⟩ := by
  simp only [CiphertextCiphertextEqualityProof.from_bytes]
  rcases h with h | h | h | h | h | h | h
  · rw [rpfos_error_of_bad decPt _ h]
  · rcases rpfos_cases decPt ((rustChunks UNIT_LEN bytes)[0]?) with
      ⟨y0, h0⟩ | h0
    · rw [h0, rpfos_error_of_bad decPt _ h]
    · rw [h0]
  · rcases rpfos_cases decPt ((rustChunks UNIT_LEN bytes)[0]?) with
      ⟨y0, h0⟩ | h0
    · rcases rpfos_cases decPt ((rustChunks UNIT_LEN bytes)[1]?) with
        ⟨y1, h1⟩ | h1
      · rw [h0, h1, rpfos_error_of_bad decPt _ h]
      · rw [h0, h1]
    · rw [h0]
  · rcases rpfos_cases decPt ((rustChunks UNIT_LEN bytes)[0]?) with
      ⟨y0, h0⟩ | h0
    · rcases rpfos_cases decPt ((rustChunks UNIT_LEN bytes)[1]?) with
        ⟨y1, h1⟩ | h1
      · rcases rpfos_cases decPt ((rustChunks UNIT_LEN bytes)[2]?) with
          ⟨y2, h2⟩ | h2
        · rw [h0, h1, h2, rpfos_error_of_bad decPt _ h]
        · rw [h0, h1, h2]
      · rw [h0, h1]
    · rw [h0]
  · rcases rpfos_cases decPt ((rustChunks UNIT_LEN bytes)[0]?) with
      ⟨y0, h0⟩ | h0
    · rcases rpfos_cases decPt ((rustChunks UNIT_LEN bytes)[1]?) with
        ⟨y1, h1⟩ | h1
      · rcases rpfos_cases decPt ((rustChunks UNIT_LEN bytes)[2]?) with
          ⟨y2, h2⟩ | h2
        · rcases rpfos_cases decPt ((rustChunks UNIT_LEN bytes)[3]?) with
            ⟨y3, h3⟩ | h3
          · rw [h0, h1, h2, h3, csfos_error_of_bad decSc _ h]
          · rw [h0, h1, h2, h3]
        · rw [h0, h1, h2]
      · rw [h0, h1]
    · rw [h0]
  · rcases rpfos_cases decPt ((rustChunks UNIT_LEN bytes)[0]?) with
      ⟨y0, h0⟩ | h0
    · rcases rpfos_cases decPt ((rustChunks UNIT_LEN bytes)[1]?) with
        ⟨y1, h1⟩ | h1
      · rcases rpfos_cases decPt ((rustChunks UNIT_LEN bytes)[2]?) with
          ⟨y2, h2⟩ | h2
        · rcases rpfos_cases decPt ((rustChunks UNIT_LEN bytes)[3]?) with
            ⟨y3, h3⟩ | h3
          · rcases csfos_cases decSc
              ((rustChunks UNIT_LEN bytes)[4]?) with ⟨v4, h4⟩ | h4
            · rw [h0, h1, h2, h3, h4, csfos_error_of_bad decSc _ h]
            · rw [h0, h1, h2, h3, h4]
          · rw [h0, h1, h2, h3]
        · rw [h0, h1, h2]
      · rw [h0, h1]
    · rw [h0]
  · rcases rpfos_cases decPt ((rustChunks UNIT_LEN bytes)[0]?) with
      ⟨y0, h0⟩ | h0
    · rcases rpfos_cases decPt ((rustChunks UNIT_LEN bytes)[1]?) with
        ⟨y1, h1⟩ | h1
      · rcases rpfos_cases decPt ((rustChunks UNIT_LEN bytes)[2]?) with
          ⟨y2, h2⟩ | h2
        · rcases rpfos_cases decPt ((rustChunks UNIT_LEN bytes)[3]?) with
            ⟨y3, h3⟩ | h3
          · rcases csfos_cases decSc
              ((rustChunks UNIT_LEN bytes)[4]?) with ⟨v4, h4⟩ | h4
            · rcases csfos_cases decSc
                ((rustChunks UNIT_LEN bytes)[5]?) with ⟨v5, h5⟩ | h5
              · rw [h0, h1, h2, h3, h4, h5,
                  csfos_error_of_bad decSc _ h]
              · rw [h0, h1, h2, h3, h4, h5]
            · rw [h0, h1, h2, h3, h4]
          · rw [h0, h1, h2, h3]
        · rw [h0, h1, h2]
      · rw [h0, h1]
    · rw [h0]

end CodecLemmas


section ChallengeHelpers

variable {F : Type} [Field F] [DecidableEq F]

/-- The transcript state of the zero-ciphertext protocol after the domain
separator and the two masking points are absorbed (shared shape of the
prover's and the verifier's call sequences). -/
def zcTranscriptYs (t : List (TEvent F)) (YP YD : Option F) :
    List (TEvent F) :=
  appendPoint (appendPoint (appendDomSep t zcDSLabel) "Y_P" YP) "Y_D" YD

/-- The challenge `c` of the zero-ciphertext protocol, derived after the
masking points are absorbed. -/
def zcChallengeC (chal : List (TEvent F) → String → F)
    (t : List (TEvent F)) (YP YD : Option F) : F :=
  (challengeScalar chal (zcTranscriptYs t YP YD) "c").1

/-- The batching weight `w` of the zero-ciphertext verifier, derived
after the response scalar `z` is absorbed. -/
def zcChallengeW (chal : List (TEvent F) → String → F)
    (t : List (TEvent F)) (YP YD : Option F) (z : F) : F :=
  (challengeScalar chal
    (appendScalar (challengeScalar chal (zcTranscriptYs t YP YD) "c").2
      "z" z) "w").1

/-- The transcript state of the ciphertext-commitment equality protocol
after the domain separator and the three masking points are absorbed. -/
def ccTranscriptYs (t : List (TEvent F)) (Y0 Y1 Y2 : Option F) :
    List (TEvent F) :=
  appendPoint
    (appendPoint (appendPoint (appendDomSep t ccDSLabel) "Y_0" Y0)
      "Y_1" Y1) "Y_2" Y2

/-- The challenge `c` of the ciphertext-commitment equality protocol. -/
def ccChallengeC (chal : List (TEvent F) → String → F)
    (t : List (TEvent F)) (Y0 Y1 Y2 : Option F) : F :=
  (challengeScalar chal (ccTranscriptYs t Y0 Y1 Y2) "c").1

/-- The batching weight `w` of the ciphertext-commitment equality
verifier, derived after the three response scalars are absorbed. -/
def ccChallengeW (chal : List (TEvent F) → String → F)
    (t : List (TEvent F)) (Y0 Y1 Y2 : Option F) (zs zx zr : F) : F :=
  (challengeScalar chal
    (appendScalar
      (appendScalar
        (appendScalar
          (challengeScalar chal (ccTranscriptYs t Y0 Y1 Y2) "c").2
          "z_s" zs) "z_x" zx) "z_r" zr) "w").1

/-- The transcript state of the ciphertext-ciphertext equality protocol
after the domain separator and the four masking points are absorbed. -/
def cceTranscriptYs (t : List (TEvent F)) (Y0 Y1 Y2 Y3 : Option F) :
    List (TEvent F) :=
  appendPoint
    (appendPoint
      (appendPoint (appendPoint (appendDomSep t cceDSLabel) "Y_0" Y0)
        "Y_1" Y1) "Y_2" Y2) "Y_3" Y3

/-- The challenge `c` of the ciphertext-ciphertext equality protocol. -/
def cceChallengeC (chal : List (TEvent F) → String → F)
    (t : List (TEvent F)) (Y0 Y1 Y2 Y3 : Option F) : F :=
  (challengeScalar chal (cceTranscriptYs t Y0 Y1 Y2 Y3) "c").1

/-- The batching weight `w` of the ciphertext-ciphertext equality
verifier, derived after the three response scalars are absorbed. -/
def cceChallengeW (chal : List (TEvent F) → String → F)
    (t : List (TEvent F)) (Y0 Y1 Y2 Y3 : Option F) (zs zx zr : F) : F :=
  (challengeScalar chal
    (appendScalar
      (appendScalar
        (appendScalar
          (challengeScalar chal (cceTranscriptYs t Y0 Y1 Y2 Y3) "c").2
          "z_s" zs) "z_x" zx) "z_r" zr) "w").1

/-- The challenge `c` the ciphertext-commitment equality verifier
derives for the proof `pr` from starting transcript `t`. -/
def ccProofChallengeC (chal : List (TEvent F) → String → F)
    (pr : CiphertextCommitmentEqualityProof F) (t : List (TEvent F)) :
    F :=
  ccChallengeC chal t pr.Y_0 pr.Y_1 pr.Y_2

/-- The batching weight `w` the ciphertext-commitment equality verifier
derives for the proof `pr` from starting transcript `t`. -/
def ccProofChallengeW (chal : List (TEvent F) → String → F)
    (pr : CiphertextCommitmentEqualityProof F) (t : List (TEvent F)) :
    F :=
  ccChallengeW chal t pr.Y_0 pr.Y_1 pr.Y_2 pr.z_s pr.z_x pr.z_r

/-- Reduction of the ciphertext-commitment equality verifier on a proof
whose masking-point encodings are all valid: it is exactly the
11-term batched algebraic test. -/
lemma ccVerify_reduce (chal : List (TEvent F) → String → F) (Hgen : F)
    (y0 y1 y2 zs zx zr : F) (pk : ElGamalPubkey F)
    (ct : ElGamalCiphertext F) (cm : PedersenCommitment F)
    (t : List (TEvent F)) :
    CiphertextCommitmentEqualityProof.verify chal Hgen
      ⟨some y0, some y1, some y2, zs, zx, zr⟩ pk ct cm t =
    (if zs * pk.point + (-(ccChallengeC chal t (some y0) (some y1)
          (some y2))) * Hgen +
        (-(1 : F)) * y0 +
        (ccChallengeW chal t (some y0) (some y1) (some y2) zs zx zr * zx) *
          Ggen F +
        (ccChallengeW chal t (some y0) (some y1) (some y2) zs zx zr * zs) *
          ct.handle.point +
        (-(ccChallengeW chal t (some y0) (some y1) (some y2) zs zx zr) *
            ccChallengeC chal t (some y0) (some y1) (some y2)) *
          ct.commitment.point +
        (-(ccChallengeW chal t (some y0) (some y1) (some y2) zs zx zr)) *
          y1 +
        (ccChallengeW chal t (some y0) (some y1) (some y2) zs zx zr *
            ccChallengeW chal t (some y0) (some y1) (some y2) zs zx zr *
            zx) * Ggen F +
        (ccChallengeW chal t (some y0) (some y1) (some y2) zs zx zr *
            ccChallengeW chal t (some y0) (some y1) (some y2) zs zx zr *
            zr) * Hgen +
        (-(ccChallengeW chal t (some y0) (some y1) (some y2) zs zx zr *
              ccChallengeW chal t (some y0) (some y1) (some y2) zs zx zr) *
            ccChallengeC chal t (some y0) (some y1) (some y2)) * cm.point +
        (-(ccChallengeW chal t (some y0) (some y1) (some y2) zs zx zr *
              ccChallengeW chal t (some y0) (some y1) (some y2) zs zx zr)) *
          y2 = 0 then
      Except.ok ()
    else Except.error ⟨SigmaProofVerificationError.AlgebraicRelation⟩) := by
  simp only [CiphertextCommitmentEqualityProof.verify,
    validateAndAppendPoint, decompress, multiscalarMul, ccChallengeC,
    ccChallengeW, ccTranscriptYs, challengeScalar, List.zipWith,
    List.sum_cons, List.sum_nil]
  ring_nf

end ChallengeHelpers

section Claims

/-- The witness field for concrete evaluations: 101 is prime, so
`ZMod 101` is a field. -/
instance fact_prime_101 : Fact (Nat.Prime 101) := ⟨by norm_num⟩

variable {F : Type} [Field F] [DecidableEq F]

/-- Claim C3: the zero-ciphertext verifier computes exactly the 6-term
multiscalar combination
`z·P + (−c)·H + (−1)·Y_P + (w·z)·D + (−w·c)·C + (−w)·Y_D`, where `c` is
the challenge derived after absorbing `Y_P` (validated) and `Y_D`
(unvalidated) and `w` is the challenge derived after absorbing `z`, and
(given both Y points decompress) it returns `Ok(())` iff this
combination is the group identity, otherwise the `AlgebraicRelation`
error. -/
theorem claim_C3_zero_ciphertext_verifier_formula
    (chal : List (TEvent F) → String → F) (Hgen : F)
    (pr : ZeroCiphertextProof F) (pk : ElGamalPubkey F)
    (ct : ElGamalCiphertext F) (t : List (TEvent F)) (yP yD : F)
    (hYP : pr.Y_P = some yP) (hYD : pr.Y_D = some yD) :
    ZeroCiphertextProof.verify chal Hgen pr pk ct t =
      (if pr.z * pk.point +
          (-(zcChallengeC chal t pr.Y_P pr.Y_D)) * Hgen +
          (-(1 : F)) * yP +
          (zcChallengeW chal t pr.Y_P pr.Y_D pr.z * pr.z) *
            ct.handle.point +
          (-(zcChallengeW chal t pr.Y_P pr.Y_D pr.z) *
              zcChallengeC chal t pr.Y_P pr.Y_D) *
            ct.commitment.point +
          (-(zcChallengeW chal t pr.Y_P pr.Y_D pr.z)) * yD = 0 then
        Except.ok ()
      else
        Except.error ⟨SigmaProofVerificationError.AlgebraicRelation⟩) := by
  obtain ⟨YP, YD, z⟩ := pr
  simp only at hYP hYD
  subst hYP hYD
  simp only [ZeroCiphertextProof.verify, validateAndAppendPoint,
    decompress, multiscalarMul, zcChallengeC, zcChallengeW,
    zcTranscriptYs, challengeScalar, List.zipWith, List.sum_cons,
    List.sum_nil]
  ring_nf

/-- Witness for C3 at a concrete input: the all-zero proof against the
all-zero statement over `ZMod 101`, with the constant-zero challenge
function; both Y fields are valid encodings and the verifier accepts,
matching the stated formula. -/
theorem claim_C3_witness :
    (ZeroCiphertextProof.Y_P
        (⟨some 0, some 0, 0⟩ : ZeroCiphertextProof (ZMod 101)) =
      some 0) ∧
    ZeroCiphertextProof.verify (fun _ _ => 0) 0
        (⟨some 0, some 0, 0⟩ : ZeroCiphertextProof (ZMod 101)) ⟨0⟩
        ⟨⟨0⟩, ⟨0⟩⟩ [] =
      (if (0 : ZMod 101) * (0 : ZMod 101) +
          (-(zcChallengeC (fun _ _ => 0) [] (some 0) (some 0))) * 0 +
          (-(1 : ZMod 101)) * 0 +
          (zcChallengeW (fun _ _ => 0) [] (some 0) (some 0) 0 * 0) * 0 +
          (-(zcChallengeW (fun _ _ => 0) [] (some 0) (some 0) 0) *
              zcChallengeC (fun _ _ => 0) [] (some 0) (some 0)) * 0 +
          (-(zcChallengeW (fun _ _ => 0) [] (some 0) (some 0) 0)) * 0 =
            0 then
        Except.ok ()
      else
        Except.error ⟨SigmaProofVerificationError.AlgebraicRelation⟩) :=
  ⟨rfl, claim_C3_zero_ciphertext_verifier_formula (fun _ _ => 0) 0
    ⟨some 0, some 0, 0⟩ ⟨0⟩ ⟨⟨0⟩, ⟨0⟩⟩ [] 0 0 rfl rfl⟩

/-- Claim C1: completeness of the ciphertext-commitment equality proof:
for every ElGamal keypair, every u64 message, and every Pedersen
opening, if the ciphertext is an ElGamal encryption of the message under
the keypair's public key, the commitment is the Pedersen commitment to
the message under that opening, and the prover's and verifier's
transcripts start in identical states (here: the same `t`), then
`verify` applied to the proof returned by
`CiphertextCommitmentEqualityProof::new` returns `Ok(())`.  The masking
scalars `y_s, y_x, y_r` sampled by the prover are universally
quantified. -/
theorem claim_C1_completeness (chal : List (TEvent F) → String → F)
    (Hgen : F) (kp : ElGamalKeypair F) (ct : ElGamalCiphertext F)
    (opening : PedersenOpening F) (commitment : PedersenCommitment F)
    (amount : Nat) (r_enc y_s y_x y_r : F) (t : List (TEvent F))
    (hamt : amount < 2 ^ 64)
    (hkp : kp.wellFormed Hgen)
    (henc : ct.isEncryptionOf Hgen kp.pubkey (amount : F) r_enc)
    (hcm : commitment = pedersenCommitWith Hgen amount opening.scalar) :
    CiphertextCommitmentEqualityProof.verify chal Hgen
      (CiphertextCommitmentEqualityProof.new chal Hgen kp ct opening
        amount y_s y_x y_r t).1 kp.pubkey ct commitment t =
      Except.ok () := by
  obtain ⟨hC, hD⟩ := henc
  subst hcm
  simp only [CiphertextCommitmentEqualityProof.new,
    CiphertextCommitmentEqualityProof.verify, validateAndAppendPoint,
    decompress, compress, multiscalarMul, challengeScalar, appendPoint,
    appendScalar, appendDomSep, pedersenCommitWith, List.zipWith,
    List.sum_cons, List.sum_nil]
  rw [if_pos]
  rw [hC, hD, ← hkp, ElGamalKeypair.wellFormed] at *
  ring

/-- Witness for C1 at a concrete input over `ZMod 101`: keypair with
`s = 1`, `P = 1`, `H = 1` (so `s·P = H`), message 55 encrypted with
randomness 0, committed with opening 0; the verifier accepts. -/
theorem claim_C1_witness :
    (55 : Nat) < 2 ^ 64 ∧
    (⟨⟨1⟩, ⟨1⟩⟩ : ElGamalKeypair (ZMod 101)).wellFormed 1 ∧
    (ElGamalPubkey.encryptWith (1 : ZMod 101) ⟨1⟩ 55 0).isEncryptionOf 1
      ⟨1⟩ ((55 : Nat) : ZMod 101) 0 ∧
    CiphertextCommitmentEqualityProof.verify (fun _ _ => 0) 1
      (CiphertextCommitmentEqualityProof.new (fun _ _ => 0) 1 ⟨⟨1⟩, ⟨1⟩⟩
        (ElGamalPubkey.encryptWith (1 : ZMod 101) ⟨1⟩ 55 0) ⟨0⟩ 55 0 0 0
        []).1 ⟨1⟩ (ElGamalPubkey.encryptWith (1 : ZMod 101) ⟨1⟩ 55 0)
      (pedersenCommitWith 1 55 (PedersenOpening.scalar ⟨0⟩)) [] =
      Except.ok () :=
  ⟨by norm_num, by decide, ⟨rfl, rfl⟩,
    claim_C1_completeness (fun _ _ => 0) 1 ⟨⟨1⟩, ⟨1⟩⟩
      (ElGamalPubkey.encryptWith (1 : ZMod 101) ⟨1⟩ 55 0) ⟨0⟩
      (pedersenCommitWith 1 55 (PedersenOpening.scalar ⟨0⟩)) 55 0 0 0 0
      [] (by norm_num) (by decide) ⟨rfl, rfl⟩ rfl⟩

/-- Claim C2: soundness scenario for the ciphertext-commitment equality
proof: for every keypair K and opening, if
`proof = new(K, encrypt_K(55), opening, 55, transcript)` is honestly
generated, then verifying that proof against the commitment
`commit(77)` built with the same opening (verifier transcript starting
in the same state as the prover's) returns `Err` whose kind is
`AlgebraicRelation`.  The Fiat-Shamir hash is modelled abstractly, so
the two derived challenges being nonzero (which holds for the real hash
except with negligible probability) and 22 being nonzero in the scalar
field (true for the 253-bit prime order) are hypotheses. -/
theorem claim_C2_soundness_55_vs_77 (chal : List (TEvent F) → String → F)
    (Hgen : F) (kp : ElGamalKeypair F) (opening : PedersenOpening F)
    (r_enc y_s y_x y_r : F) (t : List (TEvent F))
    (hkp : kp.wellFormed Hgen)
    (h22 : (22 : F) ≠ 0)
    (hc : ccProofChallengeC chal
      (CiphertextCommitmentEqualityProof.new chal Hgen kp
        (ElGamalPubkey.encryptWith Hgen kp.pubkey 55 r_enc) opening 55
        y_s y_x y_r t).1 t ≠ 0)
    (hw : ccProofChallengeW chal
      (CiphertextCommitmentEqualityProof.new chal Hgen kp
        (ElGamalPubkey.encryptWith Hgen kp.pubkey 55 r_enc) opening 55
        y_s y_x y_r t).1 t ≠ 0) :
    CiphertextCommitmentEqualityProof.verify chal Hgen
      (CiphertextCommitmentEqualityProof.new chal Hgen kp
        (ElGamalPubkey.encryptWith Hgen kp.pubkey 55 r_enc) opening 55
        y_s y_x y_r t).1 kp.pubkey
      (ElGamalPubkey.encryptWith Hgen kp.pubkey 55 r_enc)
      (pedersenCommitWith Hgen 77 opening.scalar) t =
      Except.error ⟨SigmaProofVerificationError.AlgebraicRelation⟩ := by
  simp only [ccProofChallengeC, ccProofChallengeW, ccChallengeC,
    ccChallengeW, ccTranscriptYs, CiphertextCommitmentEqualityProof.new,
    CiphertextCommitmentEqualityProof.verify, validateAndAppendPoint,
    decompress, compress, multiscalarMul, challengeScalar, appendPoint,
    appendScalar, appendDomSep, pedersenCommitWith,
    ElGamalPubkey.encryptWith, Ggen, List.zipWith, List.sum_cons,
    List.sum_nil] at hc hw ⊢
  rw [if_neg]
  intro h
  have hkp2 : kp.secret.scalar * kp.pubkey.point = Hgen := hkp
  rw [← hkp2] at h hc hw
  refine (mul_ne_zero (mul_ne_zero h22 (mul_ne_zero hw hw)) hc) ?_
  linear_combination -h

/-- Witness for C2 at a concrete input over `ZMod 101`, with the
constant-one challenge function: keypair `s = 1`, `P = 1`, `H = 1`,
encryption randomness 0, opening 0, masks 0. -/
theorem claim_C2_witness :
    (⟨⟨1⟩, ⟨1⟩⟩ : ElGamalKeypair (ZMod 101)).wellFormed 1 ∧
    (22 : ZMod 101) ≠ 0 ∧
    ccProofChallengeC (fun _ _ => 1)
      (CiphertextCommitmentEqualityProof.new (fun _ _ => 1) 1
        (⟨⟨1⟩, ⟨1⟩⟩ : ElGamalKeypair (ZMod 101))
        (ElGamalPubkey.encryptWith 1 ⟨1⟩ 55 0) ⟨0⟩ 55 0 0 0 []).1 [] ≠
      0 ∧
    CiphertextCommitmentEqualityProof.verify (fun _ _ => 1) 1
      (CiphertextCommitmentEqualityProof.new (fun _ _ => 1) 1
        (⟨⟨1⟩, ⟨1⟩⟩ : ElGamalKeypair (ZMod 101))
        (ElGamalPubkey.encryptWith 1 ⟨1⟩ 55 0) ⟨0⟩ 55 0 0 0 []).1 ⟨1⟩
      (ElGamalPubkey.encryptWith 1 ⟨1⟩ 55 0)
      (pedersenCommitWith 1 77 (PedersenOpening.scalar ⟨0⟩)) [] =
      Except.error ⟨SigmaProofVerificationError.AlgebraicRelation⟩ :=
  ⟨by decide, by decide,
    by simp [ccProofChallengeC, ccChallengeC, challengeScalar],
    claim_C2_soundness_55_vs_77 (fun _ _ => 1) 1 ⟨⟨1⟩, ⟨1⟩⟩ ⟨0⟩ 0 0 0 0
      [] (by decide) (by decide)
      (by simp [ccProofChallengeC, ccChallengeC, challengeScalar])
      (by simp [ccProofChallengeW, ccChallengeW, challengeScalar])⟩

/-- Claim C8: for every proof honestly generated by a prover whose
ElGamal public key is the group identity element (all-zero encoding,
i.e. the point 0 in discrete-log representation), verification of that
proof against that identity public key fails, and the rejection happens
through the ordinary batched algebraic check (`AlgebraicRelation`), not
through an explicit early `PubkeyIsIdentity` rejection: the verifier
never returns the `PubkeyIsIdentity` kind.  The Fiat-Shamir hash is
modelled abstractly, so `H ≠ 0`, the challenge `c ≠ 0` and
`1 + w·r_enc ≠ 0` (which hold for the real hash except with negligible
probability) are hypotheses. -/
theorem claim_C8_identity_pubkey (chal : List (TEvent F) → String → F)
    (Hgen : F) (kp : ElGamalKeypair F) (opening : PedersenOpening F)
    (amount : Nat) (r_enc y_s y_x y_r : F) (t : List (TEvent F))
    (hpk : kp.pubkey.point = 0)
    (hH : Hgen ≠ 0)
    (hc : ccProofChallengeC chal
      (CiphertextCommitmentEqualityProof.new chal Hgen kp
        (ElGamalPubkey.encryptWith Hgen kp.pubkey amount r_enc) opening
        amount y_s y_x y_r t).1 t ≠ 0)
    (hw1 : 1 + ccProofChallengeW chal
      (CiphertextCommitmentEqualityProof.new chal Hgen kp
        (ElGamalPubkey.encryptWith Hgen kp.pubkey amount r_enc) opening
        amount y_s y_x y_r t).1 t * r_enc ≠ 0) :
    (CiphertextCommitmentEqualityProof.verify chal Hgen
      (CiphertextCommitmentEqualityProof.new chal Hgen kp
        (ElGamalPubkey.encryptWith Hgen kp.pubkey amount r_enc) opening
        amount y_s y_x y_r t).1 kp.pubkey
      (ElGamalPubkey.encryptWith Hgen kp.pubkey amount r_enc)
      (pedersenCommitWith Hgen amount opening.scalar) t =
      Except.error ⟨SigmaProofVerificationError.AlgebraicRelation⟩) ∧
    (∀ (pr2 : CiphertextCommitmentEqualityProof F)
        (pk2 : ElGamalPubkey F) (ct2 : ElGamalCiphertext F)
        (cm2 : PedersenCommitment F) (t2 : List (TEvent F)),
      CiphertextCommitmentEqualityProof.verify chal Hgen pr2 pk2 ct2 cm2
          t2 ≠
        Except.error ⟨SigmaProofVerificationError.PubkeyIsIdentity⟩) := by
  constructor
  · simp only [ccProofChallengeC, ccProofChallengeW, ccChallengeC,
      ccChallengeW, ccTranscriptYs, CiphertextCommitmentEqualityProof.new,
      CiphertextCommitmentEqualityProof.verify, validateAndAppendPoint,
      decompress, compress, multiscalarMul, challengeScalar, appendPoint,
      appendScalar, appendDomSep, pedersenCommitWith,
      ElGamalPubkey.encryptWith, Ggen, List.zipWith, List.sum_cons,
      List.sum_nil, hpk] at hc hw1 ⊢
    rw [if_neg]
    intro h
    refine (mul_ne_zero (mul_ne_zero hc hH) hw1) ?_
    linear_combination -h
  · intro pr2 pk2 ct2 cm2 t2
    obtain ⟨Y0, Y1, Y2, zs, zx, zr⟩ := pr2
    cases Y0 <;> cases Y1 <;> cases Y2 <;>
      simp [CiphertextCommitmentEqualityProof.verify,
        validateAndAppendPoint, decompress] <;>
      split <;> simp

/-- Witness for C8 at a concrete input over `ZMod 101`: identity pubkey
with secret 1, message 55, encryption randomness 0, opening 0, masks 0,
constant-one challenge function. -/
theorem claim_C8_witness :
    (⟨⟨0⟩, ⟨1⟩⟩ : ElGamalKeypair (ZMod 101)).pubkey.point = 0 ∧
    (1 : ZMod 101) ≠ 0 ∧
    (1 : ZMod 101) + ccProofChallengeW (fun _ _ => 1)
      (CiphertextCommitmentEqualityProof.new (fun _ _ => 1) 1
        (⟨⟨0⟩, ⟨1⟩⟩ : ElGamalKeypair (ZMod 101))
        (ElGamalPubkey.encryptWith 1 ⟨0⟩ 55 0) ⟨0⟩ 55 0 0 0 []).1 [] *
        0 ≠ 0 ∧
    CiphertextCommitmentEqualityProof.verify (fun _ _ => 1) 1
      (CiphertextCommitmentEqualityProof.new (fun _ _ => 1) 1
        (⟨⟨0⟩, ⟨1⟩⟩ : ElGamalKeypair (ZMod 101))
        (ElGamalPubkey.encryptWith 1 ⟨0⟩ 55 0) ⟨0⟩ 55 0 0 0 []).1 ⟨0⟩
      (ElGamalPubkey.encryptWith 1 ⟨0⟩ 55 0)
      (pedersenCommitWith 1 55 (PedersenOpening.scalar ⟨0⟩)) [] =
      Except.error ⟨SigmaProofVerificationError.AlgebraicRelation⟩ :=
  ⟨rfl, by decide, by simp,
    (claim_C8_identity_pubkey (fun _ _ => 1) 1 ⟨⟨0⟩, ⟨1⟩⟩ ⟨0⟩ 55 0 0 0 0
      [] rfl (by decide)
      (by simp [ccProofChallengeC, ccChallengeC, challengeScalar])
      (by simp)).1⟩

/-- Claim C4: both equality-proof provers construct their masking
commitments and responses exactly as specified:
`Y0 = y_s·P`, `Y1 = y_x·G + y_s·D`, `Y2 = y_x·G + y_r·H` (the
ciphertext-ciphertext variant additionally `Y3 = y_r·P2` with the second
pubkey, and `Y1` using the first ciphertext's handle), and responses
`z_s = c·s + y_s`, `z_x = c·x + y_x`, `z_r = c·r + y_r`, where `c` is
the challenge derived after appending all `Y_i` and `x` is the u64
amount lifted into the scalar field. -/
theorem claim_C4_prover_structure (chal : List (TEvent F) → String → F)
    (Hgen : F) (kp : ElGamalKeypair F) (ct : ElGamalCiphertext F)
    (op : PedersenOpening F) (kp1 : ElGamalKeypair F)
    (pk2 : ElGamalPubkey F) (ct1 : ElGamalCiphertext F)
    (op2 : PedersenOpening F) (amount : Nat) (y_s y_x y_r : F)
    (t : List (TEvent F)) (hamt : amount < 2 ^ 64) :
    ((CiphertextCommitmentEqualityProof.new chal Hgen kp ct op amount
        y_s y_x y_r t).1 =
      ⟨compress (y_s * kp.pubkey.point),
        compress (y_x * Ggen F + y_s * ct.handle.point),
        compress (y_x * Ggen F + y_r * Hgen),
        ccChallengeC chal t (compress (y_s * kp.pubkey.point))
            (compress (y_x * Ggen F + y_s * ct.handle.point))
            (compress (y_x * Ggen F + y_r * Hgen)) *
            kp.secret.scalar + y_s,
        ccChallengeC chal t (compress (y_s * kp.pubkey.point))
            (compress (y_x * Ggen F + y_s * ct.handle.point))
            (compress (y_x * Ggen F + y_r * Hgen)) *
            (amount : F) + y_x,
        ccChallengeC chal t (compress (y_s * kp.pubkey.point))
            (compress (y_x * Ggen F + y_s * ct.handle.point))
            (compress (y_x * Ggen F + y_r * Hgen)) *
            op.scalar + y_r⟩) ∧
    ((CiphertextCiphertextEqualityProof.new chal Hgen kp1 pk2 ct1 op2
        amount y_s y_x y_r t).1 =
      ⟨compress (y_s * kp1.pubkey.point),
        compress (y_x * Ggen F + y_s * ct1.handle.point),
        compress (y_x * Ggen F + y_r * Hgen),
        compress (y_r * pk2.point),
        cceChallengeC chal t (compress (y_s * kp1.pubkey.point))
            (compress (y_x * Ggen F + y_s * ct1.handle.point))
            (compress (y_x * Ggen F + y_r * Hgen))
            (compress (y_r * pk2.point)) *
            kp1.secret.scalar + y_s,
        cceChallengeC chal t (compress (y_s * kp1.pubkey.point))
            (compress (y_x * Ggen F + y_s * ct1.handle.point))
            (compress (y_x * Ggen F + y_r * Hgen))
            (compress (y_r * pk2.point)) *
            (amount : F) + y_x,
        cceChallengeC chal t (compress (y_s * kp1.pubkey.point))
            (compress (y_x * Ggen F + y_s * ct1.handle.point))
            (compress (y_x * Ggen F + y_r * Hgen))
            (compress (y_r * pk2.point)) *
            op2.scalar + y_r⟩) := by
  constructor <;>
    simp [CiphertextCommitmentEqualityProof.new,
      CiphertextCiphertextEqualityProof.new, ccChallengeC, cceChallengeC,
      ccTranscriptYs, cceTranscriptYs, challengeScalar, appendPoint,
      appendDomSep, compress, multiscalarMul]

/-- Witness for C4 at a concrete input over `ZMod 101` (message 55,
all other scalars 1, constant-zero challenge function): the
ciphertext-commitment prover's output has the stated first field. -/
theorem claim_C4_witness :
    (55 : Nat) < 2 ^ 64 ∧
    (CiphertextCommitmentEqualityProof.new (fun _ _ => 0) (1 : ZMod 101)
        ⟨⟨1⟩, ⟨1⟩⟩ ⟨⟨1⟩, ⟨1⟩⟩ ⟨1⟩ 55 1 1 1 []).1 =
      ⟨compress ((1 : ZMod 101) * 1),
        compress ((1 : ZMod 101) * Ggen (ZMod 101) + 1 * 1),
        compress ((1 : ZMod 101) * Ggen (ZMod 101) + 1 * 1),
        ccChallengeC (fun _ _ => 0) []
            (compress ((1 : ZMod 101) * 1))
            (compress ((1 : ZMod 101) * Ggen (ZMod 101) + 1 * 1))
            (compress ((1 : ZMod 101) * Ggen (ZMod 101) + 1 * 1)) * 1 +
          1,
        ccChallengeC (fun _ _ => 0) []
            (compress ((1 : ZMod 101) * 1))
            (compress ((1 : ZMod 101) * Ggen (ZMod 101) + 1 * 1))
            (compress ((1 : ZMod 101) * Ggen (ZMod 101) + 1 * 1)) *
            ((55 : Nat) : ZMod 101) + 1,
        ccChallengeC (fun _ _ => 0) []
            (compress ((1 : ZMod 101) * 1))
            (compress ((1 : ZMod 101) * Ggen (ZMod 101) + 1 * 1))
            (compress ((1 : ZMod 101) * Ggen (ZMod 101) + 1 * 1)) * 1 +
          1⟩ :=
  ⟨by norm_num,
    (claim_C4_prover_structure (fun _ _ => 0) 1 ⟨⟨1⟩, ⟨1⟩⟩ ⟨⟨1⟩, ⟨1⟩⟩
      ⟨1⟩ ⟨⟨1⟩, ⟨1⟩⟩ ⟨1⟩ ⟨⟨1⟩, ⟨1⟩⟩ ⟨1⟩ 55 1 1 1 [] (by norm_num)).1⟩

/-- Claim C7: for every equality-proof verification call in which some
masking point `Y_i` held by the proof is a malformed (non-decompressible)
encoding, verification fails with an error whose kind is
`Deserialization` (per the spec's transcript contract,
`validate_and_append_point` fails with a `Deserialization` error). -/
theorem claim_C7_malformed_Y_deserialization
    (chal : List (TEvent F) → String → F) (Hgen : F) :
    (∀ (pr : CiphertextCommitmentEqualityProof F)
        (pk : ElGamalPubkey F) (ct : ElGamalCiphertext F)
        (cm : PedersenCommitment F) (t : List (TEvent F)),
      pr.Y_0 = none ∨ pr.Y_1 = none ∨ pr.Y_2 = none →
      CiphertextCommitmentEqualityProof.verify chal Hgen pr pk ct cm t =
        Except.error ⟨SigmaProofVerificationError.Deserialization⟩) ∧
    (∀ (pr : CiphertextCiphertextEqualityProof F)
        (pk1 pk2 : ElGamalPubkey F) (ct1 ct2 : ElGamalCiphertext F)
        (t : List (TEvent F)),
      pr.Y_0 = none ∨ pr.Y_1 = none ∨ pr.Y_2 = none ∨ pr.Y_3 = none →
      CiphertextCiphertextEqualityProof.verify chal Hgen pr pk1 pk2 ct1
          ct2 t =
        Except.error ⟨SigmaProofVerificationError.Deserialization⟩) := by
  constructor
  · intro pr pk ct cm t h
    obtain ⟨Y0, Y1, Y2, zs, zx, zr⟩ := pr
    cases Y0 <;> cases Y1 <;> cases Y2 <;>
      simp_all [CiphertextCommitmentEqualityProof.verify,
        validateAndAppendPoint, decompress]
  · intro pr pk1 pk2 ct1 ct2 t h
    obtain ⟨Y0, Y1, Y2, Y3, zs, zx, zr⟩ := pr
    cases Y0 <;> cases Y1 <;> cases Y2 <;> cases Y3 <;>
      simp_all [CiphertextCiphertextEqualityProof.verify,
        validateAndAppendPoint, decompress]

/-- Witness for C7 at a concrete input over `ZMod 101`: a proof whose
`Y_1` encoding is malformed is rejected with `Deserialization`. -/
theorem claim_C7_witness :
    ((⟨some 0, none, some 0, 0, 0, 0⟩ :
        CiphertextCommitmentEqualityProof (ZMod 101)).Y_0 = none ∨
      (⟨some 0, none, some 0, 0, 0, 0⟩ :
        CiphertextCommitmentEqualityProof (ZMod 101)).Y_1 = none ∨
      (⟨some 0, none, some 0, 0, 0, 0⟩ :
        CiphertextCommitmentEqualityProof (ZMod 101)).Y_2 = none) ∧
    CiphertextCommitmentEqualityProof.verify (fun _ _ => 0) 1
      (⟨some 0, none, some 0, 0, 0, 0⟩ :
        CiphertextCommitmentEqualityProof (ZMod 101)) ⟨1⟩ ⟨⟨0⟩, ⟨0⟩⟩
      ⟨0⟩ [] =
      Except.error ⟨SigmaProofVerificationError.Deserialization⟩ :=
  ⟨Or.inr (Or.inl rfl),
    (claim_C7_malformed_Y_deserialization (fun _ _ => 0) 1).1
      ⟨some 0, none, some 0, 0, 0, 0⟩ ⟨1⟩ ⟨⟨0⟩, ⟨0⟩⟩ ⟨0⟩ []
      (Or.inr (Or.inl rfl))⟩

/-- Claim C9: proof construction is total: for every keypair,
ciphertext, opening, u64 amount, and transcript state, the constructors
(`new`) of all three proof types return a proof value with no error
result and no failure branch; in particular every compressed
masking-point field of the returned proof is a valid encoding.  (In this
embedding the constructors are total Lean functions returning plain
proof values, mirroring the source signatures, which return `Self` and
not `Result`.) -/
theorem claim_C9_construction_total
    (chal : List (TEvent F) → String → F) (Hgen : F)
    (kp : ElGamalKeypair F) (ct : ElGamalCiphertext F)
    (op : PedersenOpening F) (pk2 : ElGamalPubkey F) (amount : Nat)
    (y y_s y_x y_r : F) (t : List (TEvent F))
    (hamt : amount < 2 ^ 64) :
    ((ZeroCiphertextProof.new chal kp ct y t).1.Y_P.isSome = true ∧
      (ZeroCiphertextProof.new chal kp ct y t).1.Y_D.isSome = true) ∧
    ((CiphertextCommitmentEqualityProof.new chal Hgen kp ct op amount
        y_s y_x y_r t).1.Y_0.isSome = true ∧
      (CiphertextCommitmentEqualityProof.new chal Hgen kp ct op amount
        y_s y_x y_r t).1.Y_1.isSome = true ∧
      (CiphertextCommitmentEqualityProof.new chal Hgen kp ct op amount
        y_s y_x y_r t).1.Y_2.isSome = true) ∧
    ((CiphertextCiphertextEqualityProof.new chal Hgen kp pk2 ct op
        amount y_s y_x y_r t).1.Y_0.isSome = true ∧
      (CiphertextCiphertextEqualityProof.new chal Hgen kp pk2 ct op
        amount y_s y_x y_r t).1.Y_1.isSome = true ∧
      (CiphertextCiphertextEqualityProof.new chal Hgen kp pk2 ct op
        amount y_s y_x y_r t).1.Y_2.isSome = true ∧
      (CiphertextCiphertextEqualityProof.new chal Hgen kp pk2 ct op
        amount y_s y_x y_r t).1.Y_3.isSome = true) :=
  ⟨⟨rfl, rfl⟩, ⟨rfl, rfl, rfl⟩, ⟨rfl, rfl, rfl, rfl⟩⟩

/-- Witness for C9 at a concrete input over `ZMod 101`. -/
theorem claim_C9_witness :
    (55 : Nat) < 2 ^ 64 ∧
    (ZeroCiphertextProof.new (fun _ _ => 0)
      (⟨⟨1⟩, ⟨1⟩⟩ : ElGamalKeypair (ZMod 101)) ⟨⟨0⟩, ⟨0⟩⟩ 0
      []).1.Y_P.isSome = true :=
  ⟨by norm_num,
    (claim_C9_construction_total (fun _ _ => 0) 1 ⟨⟨1⟩, ⟨1⟩⟩ ⟨⟨0⟩, ⟨0⟩⟩
      ⟨0⟩ ⟨1⟩ 55 0 0 0 0 [] (by norm_num)).1.1⟩

/-- Claim C10: for every `ZeroCiphertextProof` whose `Y_P` field is a
valid encoding but whose `Y_D` field is a malformed encoding, `verify`
returns the `Deserialization` error: even though `Y_D` is appended to
the transcript without validation, it is decompressed before the
multiscalar check and a decompression failure aborts verification with
`Deserialization` rather than reaching the algebraic check. -/
theorem claim_C10_unvalidated_YD_decompression
    (chal : List (TEvent F) → String → F) (Hgen : F)
    (pr : ZeroCiphertextProof F) (pk : ElGamalPubkey F)
    (ct : ElGamalCiphertext F) (t : List (TEvent F)) (yP : F)
    (hYP : pr.Y_P = some yP) (hYD : pr.Y_D = none) :
    ZeroCiphertextProof.verify chal Hgen pr pk ct t =
      Except.error ⟨SigmaProofVerificationError.Deserialization⟩ := by
  obtain ⟨YP, YD, z⟩ := pr
  simp only at hYP hYD
  subst hYP hYD
  simp [ZeroCiphertextProof.verify, validateAndAppendPoint, decompress]

/-- Witness for C10 at a concrete input over `ZMod 101`. -/
theorem claim_C10_witness :
    ((⟨some 0, none, 0⟩ : ZeroCiphertextProof (ZMod 101)).Y_P =
      some 0) ∧
    ZeroCiphertextProof.verify (fun _ _ => 0) 1
      (⟨some 0, none, 0⟩ : ZeroCiphertextProof (ZMod 101)) ⟨1⟩
      ⟨⟨0⟩, ⟨0⟩⟩ [] =
      Except.error ⟨SigmaProofVerificationError.Deserialization⟩ :=
  ⟨rfl,
    claim_C10_unvalidated_YD_decompression (fun _ _ => 0) 1
      ⟨some 0, none, 0⟩ ⟨1⟩ ⟨⟨0⟩, ⟨0⟩⟩ [] 0 rfl rfl⟩

/-- Concrete byte-codec instance for closed evaluations over `ZMod 101`:
a byte is an `Option (ZMod 101)` token, an encoding carries its payload
in the first byte padded to the 32-byte unit width, and a leading `none`
in a point chunk models a malformed (non-decompressible) encoding. -/
def encPtM (e : Option (ZMod 101)) : List (Option (ZMod 101)) :=
  e :: List.replicate 31 none

/-- Concrete point decoder matching `encPtM`. -/
def decPtM (l : List (Option (ZMod 101))) : Option (ZMod 101) :=
  if l.length = UNIT_LEN then l.headD none else none

/-- Concrete scalar encoder for closed evaluations over `ZMod 101`. -/
def encScM (v : ZMod 101) : List (Option (ZMod 101)) :=
  some v :: List.replicate 31 none

/-- Concrete scalar decoder matching `encScM`. -/
def decScM (l : List (Option (ZMod 101))) : Option (ZMod 101) :=
  if l.length = UNIT_LEN then l.headD none else none

/-- Counterexample to claim C5 as stated: a 97-byte input — one byte
beyond the exact `3 × width` wire size, hence of a length that is not
exactly `chunks × width` — whose first three chunks are valid is
ACCEPTED by `ZeroCiphertextProof::from_bytes`: `slice::chunks` yields a
fourth, partial chunk that the three `chunks.next()` calls never
consume, so the length condition of the claim does not cause a
`Deserialization` error. -/
theorem claim_C5_counterexample :
    (encPtM (some 1) ++ encPtM (some 1) ++ encScM 0 ++
        [none]).length ≠ 3 * UNIT_LEN ∧
    ZeroCiphertextProof.from_bytes decPtM decScM
        (encPtM (some 1) ++ encPtM (some 1) ++ encScM 0 ++ [none]) =
      Except.ok ⟨some 1, some 1, 0⟩ :=
  ⟨by decide, by rfl⟩

/-- Claim C5 (amended): for every byte string given to `from_bytes` (any
of the three proof types), if the input length is LESS THAN
`chunks × width`, or any of the first `chunks` chunks is invalid (a
group-element chunk that does not decompress, a scalar chunk that is not
canonical, or a short final chunk), then `from_bytes` returns the
`Deserialization` error and never panics; the outcome depends only on
the first `chunks × width` bytes, longer inputs being accepted with the
excess ignored when their first `chunks` chunks are valid, and the only
possible outcomes are success or the `Deserialization` error. -/
theorem claim_C5_amended_from_bytes (decPt decSc : List B → Option F)
    (bytes : List B) :
    (((badPointChunk decPt ((rustChunks UNIT_LEN bytes)[0]?) ∨
        badPointChunk decPt ((rustChunks UNIT_LEN bytes)[1]?) ∨
        badScalarChunk decSc ((rustChunks UNIT_LEN bytes)[2]?)) →
        ZeroCiphertextProof.from_bytes (F := F) decPt decSc bytes =
          Except.error ⟨SigmaProofVerificationError.Deserialization⟩) ∧
      (bytes.length < 3 * UNIT_LEN →
        ZeroCiphertextProof.from_bytes (F := F) decPt decSc bytes =
          Except.error ⟨SigmaProofVerificationError.Deserialization⟩) ∧
      ZeroCiphertextProof.from_bytes (F := F) decPt decSc bytes =
        ZeroCiphertextProof.from_bytes decPt decSc
          (bytes.take (3 * UNIT_LEN)) ∧
      ((∃ pr, ZeroCiphertextProof.from_bytes (F := F) decPt decSc
          bytes = Except.ok pr) ∨
        ZeroCiphertextProof.from_bytes (F := F) decPt decSc bytes =
          Except.error
            ⟨SigmaProofVerificationError.Deserialization⟩)) ∧
    (((badPointChunk decPt ((rustChunks UNIT_LEN bytes)[0]?) ∨
        badPointChunk decPt ((rustChunks UNIT_LEN bytes)[1]?) ∨
        badPointChunk decPt ((rustChunks UNIT_LEN bytes)[2]?) ∨
        badScalarChunk decSc ((rustChunks UNIT_LEN bytes)[3]?) ∨
        badScalarChunk decSc ((rustChunks UNIT_LEN bytes)[4]?) ∨
        badScalarChunk decSc ((rustChunks UNIT_LEN bytes)[5]?)) →
        CiphertextCommitmentEqualityProof.from_bytes (F := F) decPt
            decSc bytes =
          Except.error ⟨SigmaProofVerificationError.Deserialization⟩) ∧
      (bytes.length < 6 * UNIT_LEN →
        CiphertextCommitmentEqualityProof.from_bytes (F := F) decPt
            decSc bytes =
          Except.error ⟨SigmaProofVerificationError.Deserialization⟩) ∧
      CiphertextCommitmentEqualityProof.from_bytes (F := F) decPt decSc
          bytes =
        CiphertextCommitmentEqualityProof.from_bytes decPt decSc
          (bytes.take (6 * UNIT_LEN)) ∧
      ((∃ pr, CiphertextCommitmentEqualityProof.from_bytes (F := F)
          decPt decSc bytes = Except.ok pr) ∨
        CiphertextCommitmentEqualityProof.from_bytes (F := F) decPt
            decSc bytes =
          Except.error
            ⟨SigmaProofVerificationError.Deserialization⟩)) ∧
    (((badPointChunk decPt ((rustChunks UNIT_LEN bytes)[0]?) ∨
        badPointChunk decPt ((rustChunks UNIT_LEN bytes)[1]?) ∨
        badPointChunk decPt ((rustChunks UNIT_LEN bytes)[2]?) ∨
        badPointChunk decPt ((rustChunks UNIT_LEN bytes)[3]?) ∨
        badScalarChunk decSc ((rustChunks UNIT_LEN bytes)[4]?) ∨
        badScalarChunk decSc ((rustChunks UNIT_LEN bytes)[5]?) ∨
        badScalarChunk decSc ((rustChunks UNIT_LEN bytes)[6]?)) →
        CiphertextCiphertextEqualityProof.from_bytes (F := F) decPt
            decSc bytes =
          Except.error ⟨SigmaProofVerificationError.Deserialization⟩) ∧
      (bytes.length < 7 * UNIT_LEN →
        CiphertextCiphertextEqualityProof.from_bytes (F := F) decPt
            decSc bytes =
          Except.error ⟨SigmaProofVerificationError.Deserialization⟩) ∧
      CiphertextCiphertextEqualityProof.from_bytes (F := F) decPt decSc
          bytes =
        CiphertextCiphertextEqualityProof.from_bytes decPt decSc
          (bytes.take (7 * UNIT_LEN)) ∧
      ((∃ pr, CiphertextCiphertextEqualityProof.from_bytes (F := F)
          decPt decSc bytes = Except.ok pr) ∨
        CiphertextCiphertextEqualityProof.from_bytes (F := F) decPt
            decSc bytes =
          Except.error
            ⟨SigmaProofVerificationError.Deserialization⟩)) := by
  refine ⟨⟨zc_from_bytes_bad decPt decSc bytes, ?_,
      zc_from_bytes_take decPt decSc bytes,
      zc_from_bytes_cases decPt decSc bytes⟩,
    ⟨cc_from_bytes_bad decPt decSc bytes, ?_,
      cc_from_bytes_take decPt decSc bytes,
      cc_from_bytes_cases decPt decSc bytes⟩,
    ⟨cce_from_bytes_bad decPt decSc bytes, ?_,
      cce_from_bytes_take decPt decSc bytes,
      cce_from_bytes_cases decPt decSc bytes⟩⟩
  · intro hlen
    rcases zc_from_bytes_cases decPt decSc bytes with ⟨pr, hok⟩ | herr
    · have := zc_from_bytes_ok_length decPt decSc bytes pr hok
      omega
    · exact herr
  · intro hlen
    rcases cc_from_bytes_cases decPt decSc bytes with ⟨pr, hok⟩ | herr
    · have := cc_from_bytes_ok_length decPt decSc bytes pr hok
      omega
    · exact herr
  · intro hlen
    rcases cce_from_bytes_cases decPt decSc bytes with ⟨pr, hok⟩ | herr
    · have := cce_from_bytes_ok_length decPt decSc bytes pr hok
      omega
    · exact herr

/-- Witness for the amended C5 at concrete inputs: a 96-byte input whose
first (group-element) chunk is a malformed encoding is rejected with
`Deserialization` via the invalid-chunk clause, and the empty byte
string, shorter than every wire size, is rejected with
`Deserialization` via the length clause. -/
theorem claim_C5_witness :
    badPointChunk decPtM
      ((rustChunks UNIT_LEN
        (encPtM none ++ encPtM (some 1) ++ encScM 0))[0]?) ∧
    ZeroCiphertextProof.from_bytes decPtM decScM
        (encPtM none ++ encPtM (some 1) ++ encScM 0) =
      Except.error ⟨SigmaProofVerificationError.Deserialization⟩ ∧
    (([] : List (Option (ZMod 101))).length < 3 * UNIT_LEN) ∧
    ZeroCiphertextProof.from_bytes (F := ZMod 101) decPtM decScM [] =
      Except.error ⟨SigmaProofVerificationError.Deserialization⟩ :=
  ⟨Or.inr ⟨encPtM none, rfl, Or.inr rfl⟩,
    (claim_C5_amended_from_bytes decPtM decScM
      (encPtM none ++ encPtM (some 1) ++ encScM 0)).1.1
      (Or.inl (Or.inr ⟨encPtM none, rfl, Or.inr rfl⟩)),
    by decide,
    (claim_C5_amended_from_bytes decPtM decScM []).1.2.1 (by decide)⟩

/-- Claim C6: serialization round-trip: for every proof value (of any of
the three proof types) whose scalar fields are canonical (automatic in
this embedding, where scalars are field elements) and whose compressed
point fields are valid encodings (as all prover-produced proofs are, and
as the spec's codec contract requires for parsed ones),
`from_bytes(to_bytes(p))` returns `Ok` of a proof equal to `p` in every
field — hence it verifies identically to the original against any
statement and transcript.  The external codec is assumed correct:
encodings are one unit wide and decode back to what was encoded. -/
theorem claim_C6_roundtrip (encPt : Option F → List B)
    (decPt : List B → Option F) (encSc : F → List B)
    (decSc : List B → Option F)
    (hlenP : ∀ e, (encPt e).length = UNIT_LEN)
    (hrtP : ∀ p : F, decPt (encPt (some p)) = some p)
    (hlenS : ∀ v, (encSc v).length = UNIT_LEN)
    (hrtS : ∀ v : F, decSc (encSc v) = some v) :
    (∀ (pr : ZeroCiphertextProof F) (yP yD : F), pr.Y_P = some yP →
      pr.Y_D = some yD →
      ZeroCiphertextProof.from_bytes decPt decSc
          (ZeroCiphertextProof.to_bytes encPt encSc pr) =
        Except.ok pr) ∧
    (∀ (pr : CiphertextCommitmentEqualityProof F) (y0 y1 y2 : F),
      pr.Y_0 = some y0 → pr.Y_1 = some y1 → pr.Y_2 = some y2 →
      CiphertextCommitmentEqualityProof.from_bytes decPt decSc
          (CiphertextCommitmentEqualityProof.to_bytes encPt encSc pr) =
        Except.ok pr) ∧
    (∀ (pr : CiphertextCiphertextEqualityProof F) (y0 y1 y2 y3 : F),
      pr.Y_0 = some y0 → pr.Y_1 = some y1 → pr.Y_2 = some y2 →
      pr.Y_3 = some y3 →
      CiphertextCiphertextEqualityProof.from_bytes decPt decSc
          (CiphertextCiphertextEqualityProof.to_bytes encPt encSc pr) =
        Except.ok pr) := by
  refine ⟨?_, ?_, ?_⟩
  · intro pr yP yD hYP hYD
    obtain ⟨YP, YD, z⟩ := pr
    simp only at hYP hYD
    subst hYP hYD
    simp only [ZeroCiphertextProof.to_bytes,
      ZeroCiphertextProof.from_bytes, List.append_assoc]
    rw [rustChunks_cons UNIT_LEN (by decide) _ _ (hlenP _),
      rustChunks_cons UNIT_LEN (by decide) _ _ (hlenP _),
      rustChunks_singleton UNIT_LEN (by decide) _ (hlenS _)]
    simp [ristretto_point_from_optional_slice,
      canonical_scalar_from_optional_slice, hlenP, hlenS, hrtP, hrtS,
      compress]
  · intro pr y0 y1 y2 hY0 hY1 hY2
    obtain ⟨Y0, Y1, Y2, zs, zx, zr⟩ := pr
    simp only at hY0 hY1 hY2
    subst hY0 hY1 hY2
    simp only [CiphertextCommitmentEqualityProof.to_bytes,
      CiphertextCommitmentEqualityProof.from_bytes, List.append_assoc]
    rw [rustChunks_cons UNIT_LEN (by decide) _ _ (hlenP _),
      rustChunks_cons UNIT_LEN (by decide) _ _ (hlenP _),
      rustChunks_cons UNIT_LEN (by decide) _ _ (hlenP _),
      rustChunks_cons UNIT_LEN (by decide) _ _ (hlenS _),
      rustChunks_cons UNIT_LEN (by decide) _ _ (hlenS _),
      rustChunks_singleton UNIT_LEN (by decide) _ (hlenS _)]
    simp [ristretto_point_from_optional_slice,
      canonical_scalar_from_optional_slice, hlenP, hlenS, hrtP, hrtS,
      compress]
  · intro pr y0 y1 y2 y3 hY0 hY1 hY2 hY3
    obtain ⟨Y0, Y1, Y2, Y3, zs, zx, zr⟩ := pr
    simp only at hY0 hY1 hY2 hY3
    subst hY0 hY1 hY2 hY3
    simp only [CiphertextCiphertextEqualityProof.to_bytes,
      CiphertextCiphertextEqualityProof.from_bytes, List.append_assoc]
    rw [rustChunks_cons UNIT_LEN (by decide) _ _ (hlenP _),
      rustChunks_cons UNIT_LEN (by decide) _ _ (hlenP _),
      rustChunks_cons UNIT_LEN (by decide) _ _ (hlenP _),
      rustChunks_cons UNIT_LEN (by decide) _ _ (hlenP _),
      rustChunks_cons UNIT_LEN (by decide) _ _ (hlenS _),
      rustChunks_cons UNIT_LEN (by decide) _ _ (hlenS _),
      rustChunks_singleton UNIT_LEN (by decide) _ (hlenS _)]
    simp [ristretto_point_from_optional_slice,
      canonical_scalar_from_optional_slice, hlenP, hlenS, hrtP, hrtS,
      compress]

/-- Witness for C6 at a concrete input over `ZMod 101` with the concrete
codec: serializing and reparsing the zero-ciphertext proof
`(Y_P, Y_D, z) = (1, 2, 3)` returns exactly the original. -/
theorem claim_C6_witness :
    (∀ e, (encPtM e).length = UNIT_LEN) ∧
    (∀ p : ZMod 101, decPtM (encPtM (some p)) = some p) ∧
    ((⟨some 1, some 2, 3⟩ :
        ZeroCiphertextProof (ZMod 101)).Y_P = some 1) ∧
    ZeroCiphertextProof.from_bytes decPtM decScM
        (ZeroCiphertextProof.to_bytes encPtM encScM
          (⟨some 1, some 2, 3⟩ : ZeroCiphertextProof (ZMod 101))) =
      Except.ok ⟨some 1, some 2, 3⟩ :=
  ⟨fun _ => rfl, fun _ => rfl, rfl,
    (claim_C6_roundtrip encPtM decPtM encScM decScM (fun _ => rfl)
      (fun _ => rfl) (fun _ => rfl) (fun _ => rfl)).1
      ⟨some 1, some 2, 3⟩ 1 2 rfl rfl⟩

end Claims
